import Mathlib

/-!
Shallow embedding of `src/transaction/transaction.js` of bitcoincashjs
(the `Transaction` aggregate: mutators, fee/change engine, serialization
checks, signing precondition, sanity verifier, snapshot reconstruction).

Conventions of the embedding:
* JS numbers that the library uses for money, fees and indexes are modelled
  as `Int` (all the behaviour under scrutiny is integer behaviour; satoshi
  amounts are kept exact, mirroring the BN-backed bookkeeping).
* Fallible methods (`$.checkState` / `$.checkArgument` / `throw`) are
  modelled with `Except TxError`.  A JS method that throws leaves the object
  in an intermediate state that no caller may rely on; the embedding's error
  path simply aborts, and theorems speak about successful returns.
* Collaborator objects (Script, Output, Input variants, BufferWriter) live
  outside `src/`; their capabilities used by `transaction.js` are modelled
  as data fields or small `Modelled from the spec:` definitions, each
  documented at its declaration.
* The memoized `_inputAmount` / `_outputAmount` cells are modelled
  explicitly as `Option Int` fields, and the getters thread the updated
  state, exactly as the source mutates `this`.
-/

namespace BCash

/-- Script collaborator (external to `src/`).  `transaction.js` only uses a
script's byte buffer (`toBuffer().length`, `toString` comparisons) and the
template-recognizer capabilities listed here, so a script is modelled as its
bytes plus the recognizer verdicts. -/
structure Script where
  bytes : List Nat
  isPublicKeyHashOut : Bool
  isPublicKeyOut : Bool
  isScriptHashOut : Bool
  isMultisigOut : Bool
  isDataOut : Bool
deriving DecidableEq, Repr

/-- Output collaborator (external to `src/`): a locking script and an exact
satoshi amount.  `output.satoshis` and the internal `_satoshisBN` big integer
are kept in sync by the collaborator, so a single exact `Int` models both. -/
structure Output where
  script : Script
  satoshis : Int
deriving DecidableEq, Repr

/-- Modelled from the spec: the Output collaborator "reports whether its
amount is syntactically invalid" (negative or beyond the exactly-representable
integer range, 2^53 - 1). -/
def Output.invalidSatoshis (o : Output) : Bool :=
  o.satoshis < 0 || 9007199254740991 < o.satoshis

/-- Input collaborator (external to `src/`).  `transaction.js` uses: the
previous-output coordinate, the sequence number, the optional embedded copy
of the spent output, the raw unlock-script buffer (`_scriptBuffer`), the
accumulated signature material, the per-variant estimated encoded size, and
whether the variant overrides the generic signing capabilities
(`classified = false` models the plain fallback `Input`). -/
structure Input where
  prevTxId : List Nat
  outputIndex : Nat
  sequenceNumber : Nat
  scriptBuffer : List Nat
  output : Option Output
  signatures : List Nat
  classified : Bool
  fullySigned : Bool
  estimateSize : Nat
deriving DecidableEq, Repr

/-- Modelled from the spec: a null input is "an all-zero previous id with a
sentinel output index" (the Input collaborator's `isNull`). -/
def Input.isNull (i : Input) : Bool :=
  i.prevTxId == List.replicate 32 0 && i.outputIndex == 4294967295

/-- Modelled from the spec: the Input collaborator's `clearSignatures`
capability leaves the input with no accumulated signature material. -/
def Input.clearSig (i : Input) : Input :=
  { i with signatures := [], fullySigned := false }

/-- Errors thrown by `transaction.js` (the `errors` collaborator's kinds that
the modelled methods can raise). -/
inductive TxError where
  | MissingPreviousOutput
  | NeedMoreInfo
  | InvalidIndex (index : Int) (length : Nat)
  | UnableToVerifySignature
  | UnsupportedScript
  | InvalidArgument (msg : String)
  | CheckStateFailed (msg : String)
deriving DecidableEq, Repr

/-- Result kinds of `getSerializationError` (the error object returned, not
thrown). -/
inductive SerError where
  | InvalidSatoshis
  | InvalidOutputAmountSum
  | FeeDifferent
  | ChangeAddressMissing
  | FeeTooLarge
  | FeeTooSmall
  | DustOutputs
  | MissingSignatures
deriving DecidableEq, Repr

/-- Option flags of `serialize` / `getSerializationError`. -/
structure SerializeOpts where
  disableMoreOutputThanInput : Bool
  disableLargeFees : Bool
  disableSmallFees : Bool
  disableDustOutputs : Bool
  disableIsFullySigned : Bool
deriving DecidableEq, Repr

/-- The `Transaction` aggregate: the fields assigned by the constructor and
by the mutators of `transaction.js` (`this.inputs`, `this.outputs`,
`this.version`, `this.nLockTime`, and the underscore-prefixed bookkeeping
cells). -/
structure Transaction where
  version : Int
  inputs : List Input
  outputs : List Output
  nLockTime : Int
  _inputAmount : Option Int
  _outputAmount : Option Int
  _fee : Option Int
  _feePerKb : Option Int
  _changeScript : Option Script
  _changeIndex : Option Nat
deriving DecidableEq, Repr

namespace Transaction

/-- `CURRENT_VERSION` -/
def CURRENT_VERSION : Int := 1
/-- `DEFAULT_NLOCKTIME` -/
def DEFAULT_NLOCKTIME : Int := 0
/-- `MAX_BLOCK_SIZE` -/
def MAX_BLOCK_SIZE : Nat := 1000000
/-- `Transaction.DUST_AMOUNT` -/
def DUST_AMOUNT : Int := 546
/-- `Transaction.FEE_SECURITY_MARGIN` -/
def FEE_SECURITY_MARGIN : Int := 150
/-- `Transaction.MAX_MONEY = 21000000 * 1e8` -/
def MAX_MONEY : Int := 2100000000000000
/-- `Transaction.FEE_PER_KB` -/
def FEE_PER_KB : Int := 100000
/-- `Transaction.CHANGE_OUTPUT_MAX_SIZE = 20 + 4 + 34 + 4` -/
def CHANGE_OUTPUT_MAX_SIZE : Nat := 62
/-- `Transaction.MAXIMUM_EXTRA_SIZE = 4 + 9 + 9 + 4` -/
def MAXIMUM_EXTRA_SIZE : Nat := 26

/-- The state `new Transaction()` reaches through `_newTransaction()`:
empty input/output lists, caches and overrides unset. -/
def newTransaction : Transaction :=
  { version := CURRENT_VERSION
    inputs := []
    outputs := []
    nLockTime := DEFAULT_NLOCKTIME
    _inputAmount := none
    _outputAmount := none
    _fee := none
    _feePerKb := none
    _changeScript := none
    _changeIndex := none }

/-- `isCoinbase()`: exactly one input and it is null. -/
def isCoinbase (t : Transaction) : Bool :=
  match t.inputs with
  | [i] => i.isNull
  | _ => false

/-- Pure total of the embedded spent amounts of a list of inputs (an input
lacking its output contributes nothing; used only to state values that the
stateful getter produces after checking that no output is missing). -/
def inputsTotal (l : List Input) : Int :=
  l.foldr (fun i acc => (match i.output with
    | some o => o.satoshis
    | none => 0) + acc) 0

/-- Pure total of the embedded spent amounts of a transaction's inputs. -/
def inputTotalD (t : Transaction) : Int :=
  inputsTotal t.inputs

/-- Pure total of a list of outputs. -/
def outputsTotal (l : List Output) : Int :=
  l.foldr (fun o acc => o.satoshis + acc) 0

/-- Whether every input carries its spent-output information. -/
def allUtxo (t : Transaction) : Bool :=
  t.inputs.all (fun i => i.output.isSome)

/-- The forward accumulation of `_getInputAmount`: adds each input's
`output.satoshis`, throwing `MissingPreviousOutput` at an input whose
`output` is undefined. -/
def sumInputAmounts : List Input → Except TxError Int
  | [] => .ok 0
  | i :: rest =>
    match i.output with
    | none => .error .MissingPreviousOutput
    | some o =>
      match sumInputAmounts rest with
      | .error e => .error e
      | .ok s => .ok (o.satoshis + s)

/-- `_getInputAmount()`: memoized; on a cache miss sums the embedded spent
amounts, throwing `MissingPreviousOutput` if an input lacks its output. -/
def _getInputAmount (t : Transaction) : Except TxError (Int × Transaction) :=
  match t._inputAmount with
  | some v => .ok (v, t)
  | none =>
    match sumInputAmounts t.inputs with
    | .error e => .error e
    | .ok s => .ok (s, { t with _inputAmount := some s })

/-- `_getOutputAmount()`: memoized sum of the output amounts. -/
def _getOutputAmount (t : Transaction) : Except TxError (Int × Transaction) :=
  match t._outputAmount with
  | some v => .ok (v, t)
  | none =>
    let s := outputsTotal t.outputs
    .ok (s, { t with _outputAmount := some s })

/-- `_getUnspentValue()`: input total minus output total. -/
def _getUnspentValue (t : Transaction) : Except TxError (Int × Transaction) :=
  match _getInputAmount t with
  | .error e => .error e
  | .ok (i, t1) =>
    match _getOutputAmount t1 with
    | .error e => .error e
    | .ok (o, t2) => .ok (i - o, t2)

/-- `_clearSignatures()`: asks every input to clear its signatures. -/
def _clearSignatures (t : Transaction) : Transaction :=
  { t with inputs := t.inputs.map Input.clearSig }

/-- `_estimateSize()`: `MAXIMUM_EXTRA_SIZE` plus each input's estimated size,
plus each output's script byte length plus 9. -/
def _estimateSize (t : Transaction) : Nat :=
  t.outputs.foldl (fun acc o => acc + o.script.bytes.length + 9)
    (t.inputs.foldl (fun acc i => acc + i.estimateSize) MAXIMUM_EXTRA_SIZE)

/-- Ceiling division for `Math.ceil(a / b)` on exact integers, `b > 0`
(floor division of `a + b - 1`, matching the exact rational ceiling also for
negative numerators). -/
def ceilDivI (a b : Int) : Int := (a + b - 1).fdiv b

/-- The static `Transaction._estimateFee(size, amountAvailable, feePerKb)`.
`feePerKb || Transaction.FEE_PER_KB` is a JS truthiness guard: an unset rate
and a rate of `0` both fall back to the default. -/
def _estimateFeeStatic (size : Nat) (amountAvailable : Int) (feePerKb : Option Int) : Int :=
  let rate : Int := match feePerKb with
    | some r => if r = 0 then FEE_PER_KB else r
    | none => FEE_PER_KB
  let fee := ceilDivI size 1000 * rate
  let size' := if amountAvailable > fee then size + CHANGE_OUTPUT_MAX_SIZE else size
  ceilDivI size' 1000 * rate

/-- The prototype `_estimateFee()`: estimated size, available unspent value,
then the static formula with the `_feePerKb` override. -/
def _estimateFee (t : Transaction) : Except TxError (Int × Transaction) :=
  let estimatedSize := _estimateSize t
  match _getUnspentValue t with
  | .error e => .error e
  | .ok (available, t1) => .ok (_estimateFeeStatic estimatedSize available t1._feePerKb, t1)

/-- `getFee()`: 0 for a coinbase; the `_fee` override if set; the full
unspent value if no change script is configured; otherwise the size-based
estimate. -/
def getFee (t : Transaction) : Except TxError (Int × Transaction) :=
  if t.isCoinbase then .ok (0, t)
  else match t._fee with
  | some f => .ok (f, t)
  | none =>
    match t._changeScript with
    | none => _getUnspentValue t
    | some _ => _estimateFee t

/-- `_addOutput(output)`: append and invalidate the output-amount cache. -/
def _addOutput (t : Transaction) (o : Output) : Transaction :=
  { t with outputs := t.outputs ++ [o], _outputAmount := none }

/-- `_removeOutput(index)`: `outputs[index]` is looked up and every element
that is that object is filtered out.  All outputs held by a transaction are
distinct heap objects (each is freshly constructed when added), so an
in-range index removes exactly the element at that position; an out-of-range
index looks up `undefined` and the filter removes nothing.  Either way the
output-amount cache is invalidated. -/
def _removeOutput (t : Transaction) (index : Int) : Transaction :=
  if 0 ≤ index ∧ index.toNat < t.outputs.length then
    { t with outputs := t.outputs.eraseIdx index.toNat, _outputAmount := none }
  else
    { t with _outputAmount := none }

/-- The balance part of `_updateChangeOutput()`, applied to the state with
signatures cleared and the old change output removed: computes `available`
and `fee`, and either appends a fresh change output of `available - fee`
(recording its index) or clears the change index. -/
def _updateChangeBody (cs : Script) (w : Transaction) : Except TxError Transaction :=
  match _getUnspentValue w with
  | .error e => .error e
  | .ok (available, t3) =>
    match getFee t3 with
    | .error e => .error e
    | .ok (feeAmount, t4) =>
      let changeAmount := available - feeAmount
      if changeAmount > 0 then
        .ok (_addOutput { t4 with _changeIndex := some t4.outputs.length }
          { script := cs, satoshis := changeAmount })
      else
        .ok { t4 with _changeIndex := none }

/-- `_updateChangeOutput()`: no-op without a change script; otherwise clears
all signatures, removes the previously materialized change output, computes
`available` and `fee`, and either appends a fresh change output (recording
its index) or clears the change index. -/
def _updateChangeOutput (t : Transaction) : Except TxError Transaction :=
  match t._changeScript with
  | none => .ok t
  | some cs =>
    let t1 := _clearSignatures t
    _updateChangeBody cs
      (match t1._changeIndex with
        | some i => _removeOutput t1 (Int.ofNat i)
        | none => t1)

/- Mutators -/

/-- `uncheckedAddInput(input)`: append, invalidate the input-amount cache,
re-run change maintenance. -/
def uncheckedAddInput (t : Transaction) (i : Input) : Except TxError Transaction :=
  _updateChangeOutput { t with inputs := t.inputs ++ [i], _inputAmount := none }

/-- `addInput(input, outputScript?, satoshis?)`: requires the input to carry
its spent output, or both `outputScript` and `satoshis` to synthesize it;
then delegates to `uncheckedAddInput`. -/
def addInput (t : Transaction) (i : Input) (outputScript : Option Script)
    (satoshis : Option Int) : Except TxError Transaction :=
  if i.output.isNone ∧ (outputScript.isNone ∨ satoshis.isNone) then
    .error .NeedMoreInfo
  else
    let i' := match i.output, outputScript, satoshis with
      | none, some s, some v => { i with output := some { script := s, satoshis := v } }
      | _, _, _ => i
    uncheckedAddInput t i'

/-- `addOutput(output)`: `_addOutput` then change maintenance. -/
def addOutput (t : Transaction) (o : Output) : Except TxError Transaction :=
  _updateChangeOutput (_addOutput t o)

/-- `to(address, amount)` for a single address: the amount must be a natural
number; builds the standard output for the address' script (the
address-to-script conversion is a collaborator; the resulting script is the
parameter here) and adds it. -/
def toAddress (t : Transaction) (addressScript : Script) (amount : Int) :
    Except TxError Transaction :=
  if amount < 0 then
    .error (.InvalidArgument "Amount is expected to be a positive integer")
  else
    addOutput t { script := addressScript, satoshis := amount }

/-- `addData(value)`: adds a zero-satoshi output carrying the data script
built by the Script collaborator (`Script.buildDataOut`). -/
def addData (t : Transaction) (dataScript : Script) : Except TxError Transaction :=
  addOutput t { script := dataScript, satoshis := 0 }

/-- `clearOutputs()`: empty the outputs, clear all signatures, reset the
output-amount cache and the change index, re-run change maintenance. -/
def clearOutputs (t : Transaction) : Except TxError Transaction :=
  let t1 := { t with outputs := ([] : List Output) }
  let t2 := _clearSignatures t1
  _updateChangeOutput { t2 with _outputAmount := none, _changeIndex := none }

/-- `removeOutput(index)`: `_removeOutput` then change maintenance (there is
no bounds check on this path). -/
def removeOutput (t : Transaction) (index : Int) : Except TxError Transaction :=
  _updateChangeOutput (_removeOutput t index)

/-- `removeInput(index)` (positional overload): out-of-range index throws
`InvalidIndex`; otherwise the input at that position is removed, the
input-amount cache invalidated, and change maintenance re-run. -/
def removeInputAt (t : Transaction) (index : Int) : Except TxError Transaction :=
  if index < 0 ∨ (t.inputs.length : Int) ≤ index then
    .error (.InvalidIndex index t.inputs.length)
  else
    _updateChangeOutput
      { t with inputs := t.inputs.eraseIdx index.toNat, _inputAmount := none }

/-- `removeInput(prevTxId, outputIndex)` (lookup overload): finds the input
by coordinate (`findIndex` returns -1 when absent, which fails the range
check) and removes it as in the positional overload. -/
def removeInputCoord (t : Transaction) (txId : List Nat) (outputIndex : Nat) :
    Except TxError Transaction :=
  let index : Int :=
    match t.inputs.findIdx? (fun i => i.prevTxId == txId && i.outputIndex == outputIndex) with
    | some k => Int.ofNat k
    | none => -1
  removeInputAt t index

/-- `fee(amount)`: set the fixed fee override and re-run change
maintenance. -/
def fee (t : Transaction) (amount : Int) : Except TxError Transaction :=
  _updateChangeOutput { t with _fee := some amount }

/-- `feePerKb(amount)`: set the fee-rate override and re-run change
maintenance. -/
def feePerKb (t : Transaction) (amount : Int) : Except TxError Transaction :=
  _updateChangeOutput { t with _feePerKb := some amount }

/-- `change(address)`: set `_changeScript` from the address (the
address-to-script conversion is a collaborator; its result is the parameter)
and re-run change maintenance. -/
def change (t : Transaction) (addressScript : Script) : Except TxError Transaction :=
  _updateChangeOutput { t with _changeScript := some addressScript }

/- Signing precondition -/

/-- `hasAllUtxoInfo()`: the source returns `this.inputs.map(input =>
!!input.output)` — an array of booleans, not a boolean. -/
def hasAllUtxoInfo (t : Transaction) : List Bool :=
  t.inputs.map (fun i => i.output.isSome)

/-- JS truthiness of an array value: every object reference is truthy, so an
array is truthy regardless of its contents (even `[]` and `[false]`). -/
def jsTruthyArray (_l : List Bool) : Bool := true

/-- The `$.checkState(this.hasAllUtxoInfo(), ...)` guard that opens
`sign(privateKeys, sigtype)`: it fails only if the checked value is falsy. -/
def signPrecheck (t : Transaction) : Except TxError Unit :=
  if jsTruthyArray (hasAllUtxoInfo t) then .ok ()
  else .error (.CheckStateFailed "Cannot sign transaction because some input is not defined")

/- Serialization checks -/

/-- `invalidSatoshis()`: some output reports an invalid amount. -/
def invalidSatoshis (t : Transaction) : Bool :=
  t.outputs.any (fun o => o.invalidSatoshis)

/-- `_missingChange()`: no change script configured. -/
def _missingChange (t : Transaction) : Bool :=
  t._changeScript.isNone

/-- `isFullySigned()`: throws if some input still exposes only the generic
capability (`classified = false`); otherwise true iff every input reports
fully signed. -/
def isFullySigned (t : Transaction) : Except TxError Bool :=
  if t.inputs.any (fun i => !i.classified) then
    .error .UnableToVerifySignature
  else
    .ok (t.inputs.all (fun i => i.fullySigned))

/-- `_hasDustOutputs(opts)`: unless disabled, an output below `DUST_AMOUNT`
whose script is not a data-carrying script is a dust failure. -/
def _hasDustOutputs (opts : SerializeOpts) (t : Transaction) : Option SerError :=
  if !opts.disableDustOutputs then
    if t.outputs.any (fun o => o.satoshis < Transaction.DUST_AMOUNT && !o.script.isDataOut) then
      some .DustOutputs
    else none
  else none

/-- `_isMissingSignatures(opts)`: unless disabled, a failure when not every
input reports fully signed (`isFullySigned` can itself throw). -/
def _isMissingSignatures (opts : SerializeOpts) (t : Transaction) :
    Except TxError (Option SerError) :=
  if !opts.disableIsFullySigned then
    match isFullySigned t with
    | .error e => .error e
    | .ok b => .ok (if !b then some .MissingSignatures else none)
  else .ok none

/-- The small-fee range check of `_hasFeeError`: unless disabled, a failure
when the unspent value falls below `ceil(estimatedFee / FEE_SECURITY_MARGIN)`. -/
def _hasFeeErrorSmall (opts : SerializeOpts) (t : Transaction) (unspent : Int) :
    Except TxError (Option SerError × Transaction) :=
  if !opts.disableSmallFees then
    match _estimateFee t with
    | .error e => .error e
    | .ok (estFee, t1) =>
      if unspent < Transaction.ceilDivI estFee Transaction.FEE_SECURITY_MARGIN then
        .ok (some SerError.FeeTooSmall, t1)
      else .ok (none, t1)
  else .ok (none, t)

/-- The large-fee range check of `_hasFeeError`: unless disabled, a failure
when the unspent value exceeds `floor(FEE_SECURITY_MARGIN * estimatedFee)`,
downgraded to change-address-missing when no change script is configured;
falls through to the small-fee check. -/
def _hasFeeErrorLarge (opts : SerializeOpts) (t : Transaction) (unspent : Int) :
    Except TxError (Option SerError × Transaction) :=
  if !opts.disableLargeFees then
    match _estimateFee t with
    | .error e => .error e
    | .ok (estFee, t1) =>
      if unspent > Transaction.FEE_SECURITY_MARGIN * estFee then
        if _missingChange t1 then .ok (some SerError.ChangeAddressMissing, t1)
        else .ok (some SerError.FeeTooLarge, t1)
      else _hasFeeErrorSmall opts t1 unspent
  else _hasFeeErrorSmall opts t unspent

/-- `_hasFeeError(opts, unspent)`: explicit-fee mismatch; then the large-fee
check; then the small-fee check. -/
def _hasFeeError (opts : SerializeOpts) (t : Transaction) (unspent : Int) :
    Except TxError (Option SerError × Transaction) :=
  match t._fee with
  | some f =>
    if f ≠ unspent then
      .ok (some .FeeDifferent, t)
    else
      _hasFeeErrorLarge opts t unspent
  | none => _hasFeeErrorLarge opts t unspent

/-- The `unspentError || dust || missingSignatures` tail of
`getSerializationError`. -/
def serErrorTail (opts : SerializeOpts) (p : Option SerError × Transaction) :
    Except TxError (Option SerError × Transaction) :=
  match p with
  | (some e, t1) => .ok (some e, t1)
  | (none, t1) =>
    match _hasDustOutputs opts t1 with
    | some e => .ok (some e, t1)
    | none =>
      match _isMissingSignatures opts t1 with
      | .error e => .error e
      | .ok ms => .ok (ms, t1)

/-- `getSerializationError(opts)`: invalid satoshis; then the
outputs-exceed-inputs check on a negative unspent value (else the fee range
checks); then dust outputs; then missing signatures — first failure wins. -/
def getSerializationError (opts : SerializeOpts) (t : Transaction) :
    Except TxError (Option SerError × Transaction) :=
  if invalidSatoshis t then
    .ok (some .InvalidSatoshis, t)
  else
    match _getUnspentValue t with
    | .error e => .error e
    | .ok (unspent, t1) =>
      if unspent < 0 then
        serErrorTail opts
          ((if !opts.disableMoreOutputThanInput
            then some SerError.InvalidOutputAmountSum else none), t1)
      else
        match _hasFeeError opts t1 unspent with
        | .error e => .error e
        | .ok p => serErrorTail opts p

end Transaction

/- Wire-size model (for the block-size bound of `verify()`) -/

/-- Modelled from the spec: the varint length prefix used by the wire
format (1, 3, 5 or 9 bytes depending on the value). -/
def varintSize (n : Nat) : Nat :=
  if n < 253 then 1
  else if n < 65536 then 3
  else if n < 4294967296 then 5
  else 9

/-- Modelled from the spec: the Input collaborator's wire encoding — the
previous-output coordinate (id bytes + 4-byte index), the length-prefixed
unlock script, and the 4-byte sequence number. -/
def Input.wireSize (i : Input) : Nat :=
  i.prevTxId.length + 4 + varintSize i.scriptBuffer.length + i.scriptBuffer.length + 4

/-- Modelled from the spec: the Output collaborator's wire encoding — the
8-byte amount and the length-prefixed locking script. -/
def Output.wireSize (o : Output) : Nat :=
  8 + varintSize o.script.bytes.length + o.script.bytes.length

namespace Transaction

/-- `toBuffer().length`: the canonical layout `int32 version | varint count |
inputs | varint count | outputs | uint32 lockTime` (spec section 6). -/
def toBufferLength (t : Transaction) : Nat :=
  4 + varintSize t.inputs.length + (t.inputs.map Input.wireSize).sum
    + varintSize t.outputs.length + (t.outputs.map Output.wireSize).sum + 4

end Transaction

/- Buffer#toString() — the UTF-8 lossy decoding used (via a template
literal) by the duplicate-input check of `verify()` -/

/-- The replacement character U+FFFD. -/
def replChar : Char := Char.ofNat 0xFFFD

/-- Whether a byte is a UTF-8 continuation byte (0x80–0xBF). -/
def isCont (b : Nat) : Bool := 0x80 ≤ b && b ≤ 0xBF

/-- Modelled from Node's `Buffer#toString()` (default encoding UTF-8), which
`${input.prevTxId}` invokes inside a template literal: WHATWG-style decoding
where every maximal invalid subsequence decodes to one U+FFFD replacement
character.  Second-byte ranges follow the standard table (0xE0: A0–BF,
0xED: 80–9F, 0xF0: 90–BF, 0xF4: 80–8F). -/
def utf8Lossy : List Nat → List Char
  | [] => []
  | b :: rest =>
    if b ≤ 0x7F then Char.ofNat b :: utf8Lossy rest
    else if b < 0xC2 then replChar :: utf8Lossy rest
    else if b ≤ 0xDF then
      match rest with
      | [] => [replChar]
      | b2 :: rest2 =>
        if isCont b2 then
          Char.ofNat ((b - 0xC0) * 64 + (b2 - 0x80)) :: utf8Lossy rest2
        else replChar :: utf8Lossy (b2 :: rest2)
    else if b ≤ 0xEF then
      let lo2 := if b = 0xE0 then 0xA0 else 0x80
      let hi2 := if b = 0xED then 0x9F else 0xBF
      match rest with
      | [] => [replChar]
      | b2 :: rest2 =>
        if lo2 ≤ b2 && b2 ≤ hi2 then
          match rest2 with
          | [] => [replChar]
          | b3 :: rest3 =>
            if isCont b3 then
              Char.ofNat ((b - 0xE0) * 4096 + (b2 - 0x80) * 64 + (b3 - 0x80))
                :: utf8Lossy rest3
            else replChar :: utf8Lossy (b3 :: rest3)
        else replChar :: utf8Lossy (b2 :: rest2)
    else if b ≤ 0xF4 then
      let lo2 := if b = 0xF0 then 0x90 else 0x80
      let hi2 := if b = 0xF4 then 0x8F else 0xBF
      match rest with
      | [] => [replChar]
      | b2 :: rest2 =>
        if lo2 ≤ b2 && b2 ≤ hi2 then
          match rest2 with
          | [] => [replChar]
          | b3 :: rest3 =>
            if isCont b3 then
              match rest3 with
              | [] => [replChar]
              | b4 :: rest4 =>
                if isCont b4 then
                  Char.ofNat ((b - 0xF0) * 262144 + (b2 - 0x80) * 4096
                    + (b3 - 0x80) * 64 + (b4 - 0x80)) :: utf8Lossy rest4
                else replChar :: utf8Lossy (b4 :: rest4)
            else replChar :: utf8Lossy (b3 :: rest3)
        else replChar :: utf8Lossy (b2 :: rest2)
    else replChar :: utf8Lossy rest

/-- A byte buffer rendered as the string a JS template literal produces. -/
def bufToString (l : List Nat) : String := String.mk (utf8Lossy l)

namespace Transaction

/- `verify()` -/

/-- The output loop of `verify()`: invalid amount, single amount above
`MAX_MONEY`, or exact running total above `MAX_MONEY` (the BN accumulation
is exact, modelled by `Int`). -/
def verifyOutputsLoop : List Output → Int → Option String
  | [], _ => none
  | o :: rest, acc =>
    if o.invalidSatoshis then some "Transaction output contains invalid amount"
    else if o.satoshis > MAX_MONEY then
      some "Transaction output contains too high satoshi amount"
    else
      let acc' := acc + o.satoshis
      if acc' > MAX_MONEY then
        some "Transaction output contains too high satoshi amount"
      else verifyOutputsLoop rest acc'

/-- The key `` `${prevTxId}:${outputIndex}` `` of the duplicate-input map of
`verify()`: the previous id buffer is stringified through the UTF-8 lossy
decoding. -/
def inputKey (i : Input) : String :=
  bufToString i.prevTxId ++ ":" ++ toString i.outputIndex

/-- The duplicate-input loop of `verify()`: walks the inputs recording each
key, failing at the first key already seen. -/
def verifyDupLoop : List Input → List String → Bool
  | [], _ => false
  | i :: rest, seen =>
    let k := inputKey i
    if seen.contains k then true
    else verifyDupLoop rest (k :: seen)

/-- `verify()`: the structural sanity pipeline; `some message` is the failure
string, `none` is the success indicator (`true` in the source). -/
def verify (t : Transaction) : Option String :=
  if t.inputs.length = 0 then some "transaction txins empty"
  else if t.outputs.length = 0 then some "transaction txouts empty"
  else match verifyOutputsLoop t.outputs 0 with
  | some msg => some msg
  | none =>
    if t.toBufferLength > MAX_BLOCK_SIZE then
      some "Transaction over the maximum block size"
    else if verifyDupLoop t.inputs [] then
      some "Transaction contains duplicate input"
    else if t.isCoinbase then
      match t.inputs with
      | i :: _ =>
        if i.scriptBuffer.length < 2 ∨ i.scriptBuffer.length > 100 then
          some "Coinbase transaction script size invalid"
        else none
      | [] => none
    else if t.inputs.any (fun i => i.isNull) then
      some "Transaction has null input"
    else none

end Transaction

/- Snapshot reconstruction (`fromObject`) -/

/-- The structured form of one input inside a snapshot: the base input data,
plus whether the snapshot carries the `publicKeys`/`threshold` parameters the
multisig-via-script-hash classification requires.  (The hash field of the
snapshot and collaborator-attached auxiliary fields are orthogonal to the
reconstruction modelled here; the snapshot hash consistency check depends on
the external double-hash collaborator and is omitted.) -/
structure InputSnapshot where
  prevTxId : List Nat
  outputIndex : Nat
  sequenceNumber : Nat
  scriptBuffer : List Nat
  output : Option Output
  hasMultisigParams : Bool
  estimateSize : Nat
deriving DecidableEq, Repr

/-- A structured transaction snapshot (`toObject` form). -/
structure TxSnapshot where
  version : Int
  inputs : List InputSnapshot
  outputs : List Output
  nLockTime : Int
  changeScript : Option Script
  changeIndex : Option Nat
  fee : Option Int
deriving DecidableEq, Repr

namespace Transaction

/-- The input classification of `fromObject`: no embedded output (or no
script on it) gives a plain unclassified `Input`; otherwise
pay-to-public-key-hash, then script-hash with multisig parameters, then
pay-to-public-key, else `UnsupportedScript`. -/
def classifySnapshotInput (s : InputSnapshot) : Except TxError (Input × Bool) :=
  let base : Input :=
    { prevTxId := s.prevTxId
      outputIndex := s.outputIndex
      sequenceNumber := s.sequenceNumber
      scriptBuffer := s.scriptBuffer
      output := s.output
      signatures := []
      classified := false
      fullySigned := false
      estimateSize := s.estimateSize }
  match s.output with
  | none => .ok (base, false)
  | some o =>
    if o.script.isPublicKeyHashOut then .ok ({ base with classified := true }, true)
    else if o.script.isScriptHashOut && s.hasMultisigParams then
      .ok ({ base with classified := true }, true)
    else if o.script.isPublicKeyOut then .ok ({ base with classified := true }, true)
    else .error .UnsupportedScript

/-- The input loop of `fromObject`: unclassified inputs go through
`uncheckedAddInput`, classified ones through `addInput`. -/
def fromObjectInputs : List InputSnapshot → Transaction → Except TxError Transaction
  | [], t => .ok t
  | s :: rest, t =>
    match classifySnapshotInput s with
    | .error e => .error e
    | .ok (i, viaAddInput) =>
      match (if viaAddInput then addInput t i none none else uncheckedAddInput t i) with
      | .error e => .error e
      | .ok t1 => fromObjectInputs rest t1

/-- The output loop of `fromObject`: each snapshot output is added through
`addOutput`. -/
def fromObjectOutputs : List Output → Transaction → Except TxError Transaction
  | [], t => .ok t
  | o :: rest, t =>
    match addOutput t o with
    | .error e => .error e
    | .ok t1 => fromObjectOutputs rest t1

/-- `_checkConsistency()` (the change-tracking part): a defined change index
requires the change script to be set, the indexed output to exist, and its
script's rendering to match the change script's. -/
def _checkConsistency (t : Transaction) : Except TxError Unit :=
  match t._changeIndex with
  | none => .ok ()
  | some k =>
    match t._changeScript with
    | none => .error (.CheckStateFailed "Change script missing")
    | some cs =>
      match t.outputs.get? k with
      | none => .error (.CheckStateFailed "Change output missing")
      | some o =>
        if o.script.bytes = cs.bytes then .ok ()
        else .error (.CheckStateFailed "Script in argument does not match script in transaction")

/-- `fromObject(obj)` on a freshly constructed transaction: rebuild the
inputs and outputs, restore `changeIndex`, `changeScript` and `fee` behind
JS truthiness guards (`0` and the empty script string are falsy), set
`nLockTime` and `version`, and run the consistency check. -/
def fromObject (snap : TxSnapshot) : Except TxError Transaction :=
  match fromObjectInputs snap.inputs newTransaction with
  | .error e => .error e
  | .ok t0 =>
    match fromObjectOutputs snap.outputs t0 with
    | .error e => .error e
    | .ok t1 =>
      let t2 := match snap.changeIndex with
        | some k => if k ≠ 0 then { t1 with _changeIndex := some k } else t1
        | none => t1
      let t3 := match snap.changeScript with
        | some s => if s.bytes ≠ [] then { t2 with _changeScript := some s } else t2
        | none => t2
      let t4 := match snap.fee with
        | some f => if f ≠ 0 then { t3 with _fee := some f } else t3
        | none => t3
      let t5 := { t4 with nLockTime := snap.nLockTime, version := snap.version }
      match _checkConsistency t5 with
      | .error e => .error e
      | .ok _ => .ok t5

/- Pure recomputations and invariants -/

/-- Pure unspent value: input total minus output total. -/
def unspentD (t : Transaction) : Int :=
  inputTotalD t - outputsTotal t.outputs

/-- The value `getFee()` produces when it succeeds, recomputed purely
(ignoring the memo cells, which the stateful getters keep coherent). -/
def getFeePure (t : Transaction) : Int :=
  if t.isCoinbase then 0
  else match t._fee with
  | some f => f
  | none =>
    match t._changeScript with
    | none => unspentD t
    | some _ => _estimateFeeStatic (_estimateSize t) (unspentD t) t._feePerKb

/-- Coherence of the memo cells: a filled `_inputAmount` implies every input
carries its output and the cell holds the true total; a filled
`_outputAmount` holds the true total. -/
def cachesCoherent (t : Transaction) : Prop :=
  (∀ v, t._inputAmount = some v → allUtxo t = true ∧ v = inputTotalD t) ∧
  (∀ v, t._outputAmount = some v → v = outputsTotal t.outputs)

/-- The change-tracking consistency of spec invariant 1: a defined change
index points at an existing output whose script is the configured change
script. -/
def changeIdxConsistent (t : Transaction) : Prop :=
  ∀ k, t._changeIndex = some k →
    ∃ cs, t._changeScript = some cs ∧
      ∃ h : k < t.outputs.length, (t.outputs.get ⟨k, h⟩).script = cs

/-- The post-mutation change-output property of claim C1: without a change
script the change index is undefined; with one, a defined index `k` tracks
an existing output whose script is the change script and whose amount is
`available - fee` (both recomputed at the state with the change output
removed, the state of the most recent recomputation), that difference being
positive; an undefined index means the difference is not positive. -/
def changePostInv (t : Transaction) : Prop :=
  (t._changeScript = none → t._changeIndex = none) ∧
  (∀ cs, t._changeScript = some cs →
    (∀ k, t._changeIndex = some k →
      ∃ h : k < t.outputs.length,
        (t.outputs.get ⟨k, h⟩).script = cs ∧
        (t.outputs.get ⟨k, h⟩).satoshis
          = (inputTotalD t - outputsTotal (t.outputs.eraseIdx k))
            - getFeePure { t with outputs := t.outputs.eraseIdx k } ∧
        (inputTotalD t - outputsTotal (t.outputs.eraseIdx k))
          - getFeePure { t with outputs := t.outputs.eraseIdx k } > 0) ∧
    (t._changeIndex = none →
      inputTotalD t - outputsTotal t.outputs - getFeePure t ≤ 0))

/-- The public mutations of claim C1. -/
inductive Mutation where
  | addInput (i : Input) (outputScript : Option Script) (satoshis : Option Int)
  | uncheckedAddInput (i : Input)
  | addOutput (o : Output)
  | toAddress (addressScript : Script) (amount : Int)
  | addData (dataScript : Script)
  | removeInputAt (index : Int)
  | removeInputCoord (txId : List Nat) (outputIndex : Nat)
  | removeOutput (index : Int)
  | clearOutputs
  | setFee (amount : Int)
  | setFeePerKb (amount : Int)
  | change (addressScript : Script)

/-- Dispatch of a public mutation to the corresponding method. -/
def applyMutation : Mutation → Transaction → Except TxError Transaction
  | .addInput i os sat, t => addInput t i os sat
  | .uncheckedAddInput i, t => uncheckedAddInput t i
  | .addOutput o, t => addOutput t o
  | .toAddress s amount, t => toAddress t s amount
  | .addData s, t => addData t s
  | .removeInputAt index, t => removeInputAt t index
  | .removeInputCoord txId oi, t => removeInputCoord t txId oi
  | .removeOutput index, t => removeOutput t index
  | .clearOutputs, t => clearOutputs t
  | .setFee amount, t => fee t amount
  | .setFeePerKb amount, t => feePerKb t amount
  | .change s, t => change t s

/-- States reachable from a freshly constructed transaction through
successful public mutations. -/
inductive Reachable : Transaction → Prop where
  | base : Reachable newTransaction
  | step (m : Mutation) (t t' : Transaction) :
      Reachable t → applyMutation m t = .ok t' → Reachable t'

/- Spec-side recomputations (claims C4 and C5) -/

/-- Claim C4 as stated: first-pass fee `ceil(size/1000) * rate` with `rate`
the feePerKb override whenever the override is set, `100000` otherwise; a
second pass over `size + CHANGE_OUTPUT_MAX_SIZE` when the unspent value
exceeds the first-pass fee. -/
def claimedEstimatedFee (t : Transaction) : Int :=
  let rate : Int := match t._feePerKb with
    | some r => r
    | none => FEE_PER_KB
  let size := _estimateSize t
  let fee1 := ceilDivI size 1000 * rate
  if unspentD t > fee1 then ceilDivI (size + CHANGE_OUTPUT_MAX_SIZE) 1000 * rate
  else fee1

/-- Claim C4 as amended: same formula, but the rate falls back to the
default for an override of 0 (the truthiness guard `feePerKb ||
FEE_PER_KB`). -/
def amendedEstimatedFee (t : Transaction) : Int :=
  let rate : Int := match t._feePerKb with
    | some r => if r = 0 then FEE_PER_KB else r
    | none => FEE_PER_KB
  let size := _estimateSize t
  let fee1 := ceilDivI size 1000 * rate
  if unspentD t > fee1 then ceilDivI (size + CHANGE_OUTPUT_MAX_SIZE) 1000 * rate
  else fee1

/-- First entry of a check list that reports a failure (claim C5's "first
failing check wins"). -/
def firstSome : List (Option SerError) → Option SerError
  | [] => none
  | some e :: _ => some e
  | none :: rest => firstSome rest

/-- The serialization-check pipeline as claim C5 states it: the five checks
in their fixed order, each disableable, the fee-bound block running only on
a non-negative unspent value (the spec's "else"), the first failure
returned. -/
def specSerializationError (opts : SerializeOpts) (t : Transaction) : Option SerError :=
  let unspent := unspentD t
  let estFee := _estimateFeeStatic (_estimateSize t) unspent t._feePerKb
  firstSome
    [ if invalidSatoshis t then some .InvalidSatoshis else none
    , if unspent < 0 ∧ !opts.disableMoreOutputThanInput then some .InvalidOutputAmountSum
      else none
    , if 0 ≤ unspent then
        firstSome
          [ match t._fee with
            | some f => if f ≠ unspent then some SerError.FeeDifferent else none
            | none => none
          , if !opts.disableLargeFees ∧ unspent > FEE_SECURITY_MARGIN * estFee then
              (if t._changeScript.isNone then some SerError.ChangeAddressMissing
               else some SerError.FeeTooLarge)
            else none
          , if !opts.disableSmallFees ∧ unspent < ceilDivI estFee FEE_SECURITY_MARGIN then
              some SerError.FeeTooSmall
            else none ]
      else none
    , if !opts.disableDustOutputs
        ∧ t.outputs.any (fun o => o.satoshis < DUST_AMOUNT && !o.script.isDataOut) then
        some .DustOutputs
      else none
    , if !opts.disableIsFullySigned ∧ ¬(t.inputs.all (fun i => i.fullySigned) = true) then
        some .MissingSignatures
      else none ]

end Transaction

/- Concrete fixtures (used by counterexamples and witnesses) -/

/-- A pay-to-public-key-hash-shaped locking script fixture. -/
def sPkh : Script :=
  { bytes := [118, 169, 20, 7, 7, 7], isPublicKeyHashOut := true, isPublicKeyOut := false,
    isScriptHashOut := false, isMultisigOut := false, isDataOut := false }

/-- An input fixture spending a 1000-satoshi output. -/
def inFunded : Input :=
  { prevTxId := [1], outputIndex := 0, sequenceNumber := 4294967295, scriptBuffer := [],
    output := some { script := sPkh, satoshis := 1000 }, signatures := [],
    classified := true, fullySigned := false, estimateSize := 148 }

/-- C3 counterexample state: non-coinbase, fully funded inputs, no change
script, but an explicit fee override of 7. -/
def txC3 : Transaction :=
  { version := 1, inputs := [inFunded], outputs := [{ script := sPkh, satoshis := 300 }],
    nLockTime := 0, _inputAmount := none, _outputAmount := none, _fee := some 7,
    _feePerKb := none, _changeScript := none, _changeIndex := none }

/-- C4 counterexample state: a feePerKb override of 0. -/
def txC4 : Transaction :=
  { version := 1, inputs := [inFunded], outputs := [], nLockTime := 0,
    _inputAmount := none, _outputAmount := none, _fee := none,
    _feePerKb := some 0, _changeScript := none, _changeIndex := none }

/-- An input carrying no spent-output information. -/
def inNoUtxo : Input :=
  { prevTxId := [2], outputIndex := 0, sequenceNumber := 4294967295,
    scriptBuffer := [], output := none, signatures := [], classified := false,
    fullySigned := false, estimateSize := 41 }

/-- C2 failing state: an input that does not carry its spent output. -/
def txC2 : Transaction :=
  { version := 1, inputs := [inNoUtxo], outputs := [], nLockTime := 0,
    _inputAmount := none, _outputAmount := none,
    _fee := none, _feePerKb := none, _changeScript := none, _changeIndex := none }

/-- An input whose previous id is 32 bytes of 0x80. -/
def inCollideA : Input :=
  { prevTxId := List.replicate 32 128, outputIndex := 0,
    sequenceNumber := 4294967295, scriptBuffer := [0, 1, 2],
    output := none, signatures := [], classified := true,
    fullySigned := false, estimateSize := 148 }

/-- An input whose previous id is 32 bytes of 0x81 (distinct from
`inCollideA`, but the same lossy UTF-8 text). -/
def inCollideB : Input :=
  { prevTxId := List.replicate 32 129, outputIndex := 0,
    sequenceNumber := 4294967295, scriptBuffer := [0, 1, 2],
    output := none, signatures := [], classified := true,
    fullySigned := false, estimateSize := 148 }

/-- C6 failing state: two inputs with distinct previous ids that stringify
to the same lossy UTF-8 text, same output index. -/
def txC6 : Transaction :=
  { version := 1, inputs := [inCollideA, inCollideB],
    outputs := [{ script := sPkh, satoshis := 600 }], nLockTime := 0,
    _inputAmount := none, _outputAmount := none, _fee := none, _feePerKb := none,
    _changeScript := none, _changeIndex := none }

/-- C7 counterexample state: one output, no change script. -/
def txC7 : Transaction :=
  { version := 1, inputs := [], outputs := [{ script := sPkh, satoshis := 600 }],
    nLockTime := 0, _inputAmount := none, _outputAmount := none, _fee := none,
    _feePerKb := none, _changeScript := none, _changeIndex := none }

/-- C8 counterexample state: an input holding signature material, no change
script configured. -/
def txC8 : Transaction :=
  { version := 1,
    inputs := [{ inFunded with signatures := [7], fullySigned := true }],
    outputs := [], nLockTime := 0, _inputAmount := none, _outputAmount := none,
    _fee := none, _feePerKb := none, _changeScript := none, _changeIndex := none }

/-- All serialization checks enabled. -/
def opts0 : SerializeOpts :=
  { disableMoreOutputThanInput := false, disableLargeFees := false,
    disableSmallFees := false, disableDustOutputs := false,
    disableIsFullySigned := false }

/-- C9 witness state: a funded input and a configured change script. -/
def txC9 : Transaction :=
  { version := 1, inputs := [inFunded], outputs := [{ script := sPkh, satoshis := 300 }],
    nLockTime := 0, _inputAmount := none, _outputAmount := none, _fee := some 100,
    _feePerKb := none, _changeScript := some sPkh, _changeIndex := none }

/-- C10 witness snapshot: zero change index and zero fee. -/
def snapC10 : TxSnapshot :=
  { version := 1, inputs := [], outputs := [{ script := sPkh, satoshis := 600 }],
    nLockTime := 0, changeScript := none, changeIndex := some 0, fee := some 0 }

/-- C1 witness state: the result of `fee 5` on a fresh transaction. -/
def txC1W : Transaction :=
  { version := 1, inputs := [], outputs := [], nLockTime := 0,
    _inputAmount := none, _outputAmount := none, _fee := some 5,
    _feePerKb := none, _changeScript := none, _changeIndex := none }

/-- The state of a transaction with both memo cells filled with their true
totals (the state every cache-missing getter leaves behind). -/
def Transaction.fillCaches (t : Transaction) : Transaction :=
  { t with _inputAmount := some (Transaction.inputTotalD t)
           _outputAmount := some (Transaction.outputsTotal t.outputs) }

/-- C3/C4 witness state: `txC3` without the explicit fee override. -/
def txC3W : Transaction :=
  { txC3 with _fee := none }

/-- C8 witness state: an input holding a signature and a configured change
script with an explicit fee. -/
def txC8S : Transaction :=
  { txC8 with _changeScript := some sPkh, _fee := some 100 }

/-- The state `fee txC8S 3` produces: signatures cleared, a 997-satoshi
change output appended at index 0. -/
def tC8S : Transaction :=
  { version := 1, inputs := [inFunded], outputs := [{ script := sPkh, satoshis := 997 }],
    nLockTime := 0, _inputAmount := some 1000, _outputAmount := none, _fee := some 3,
    _feePerKb := none, _changeScript := some sPkh, _changeIndex := some 0 }

/-- The state `clearOutputs txC9` produces: signatures cleared (already
empty), one 900-satoshi change output at index 0. -/
def tC9R : Transaction :=
  { version := 1, inputs := [inFunded], outputs := [{ script := sPkh, satoshis := 900 }],
    nLockTime := 0, _inputAmount := some 1000, _outputAmount := none, _fee := some 100,
    _feePerKb := none, _changeScript := some sPkh, _changeIndex := some 0 }

/-- The state `clearOutputs` reaches just before re-running change
maintenance: outputs emptied, signatures cleared, output-amount cache and
change index reset. -/
def emptiedOutputs (t : Transaction) : Transaction :=
  { Transaction._clearSignatures { t with outputs := ([] : List Output) } with
    _outputAmount := none, _changeIndex := none }

/-- The transaction `fromObject snapC10` reconstructs: the zero-valued
`changeIndex` and `fee` fields of the snapshot are left unset. -/
def tC10 : Transaction :=
  { version := 1, inputs := [], outputs := [{ script := sPkh, satoshis := 600 }],
    nLockTime := 0, _inputAmount := none, _outputAmount := none, _fee := none,
    _feePerKb := none, _changeScript := none, _changeIndex := none }

namespace Transaction


/- List helpers -/

theorem eraseIdx_concat {α : Type} (l : List α) (a : α) :
    (l ++ [a]).eraseIdx l.length = l := by
  induction l with
  | nil => rfl
  | cons x xs ih => simp [List.eraseIdx, ih]

theorem get_concat {α : Type} (l : List α) (a : α)
    (h : l.length < (l ++ [a]).length) : (l ++ [a]).get ⟨l.length, h⟩ = a := by
  induction l with
  | nil => rfl
  | cons x xs ih => exact ih (by simp)

@[simp] theorem inputsTotal_nil : inputsTotal [] = 0 := rfl

@[simp] theorem inputsTotal_cons (i : Input) (l : List Input) :
    inputsTotal (i :: l)
      = (match i.output with | some o => o.satoshis | none => 0) + inputsTotal l := rfl

@[simp] theorem outputsTotal_nil : outputsTotal [] = 0 := rfl

@[simp] theorem outputsTotal_cons (o : Output) (l : List Output) :
    outputsTotal (o :: l) = o.satoshis + outputsTotal l := rfl

theorem outputsTotal_append (l1 l2 : List Output) :
    outputsTotal (l1 ++ l2) = outputsTotal l1 + outputsTotal l2 := by
  induction l1 with
  | nil => simp
  | cons o l ih => simp [ih]; ring

theorem inputsTotal_clearSig (l : List Input) :
    inputsTotal (l.map Input.clearSig) = inputsTotal l := by
  induction l with
  | nil => rfl
  | cons i l ih => simp [Input.clearSig, ih]

/- Projection lemmas for the composite state operations -/

@[simp] theorem clearSignatures_changeScript (t : Transaction) :
    (_clearSignatures t)._changeScript = t._changeScript := rfl
@[simp] theorem clearSignatures_changeIndex (t : Transaction) :
    (_clearSignatures t)._changeIndex = t._changeIndex := rfl
@[simp] theorem clearSignatures_outputs (t : Transaction) :
    (_clearSignatures t).outputs = t.outputs := rfl
@[simp] theorem clearSignatures_inputs (t : Transaction) :
    (_clearSignatures t).inputs = t.inputs.map Input.clearSig := rfl
@[simp] theorem clearSignatures_inputAmount (t : Transaction) :
    (_clearSignatures t)._inputAmount = t._inputAmount := rfl
@[simp] theorem clearSignatures_outputAmount (t : Transaction) :
    (_clearSignatures t)._outputAmount = t._outputAmount := rfl
@[simp] theorem clearSignatures_fee (t : Transaction) :
    (_clearSignatures t)._fee = t._fee := rfl
@[simp] theorem clearSignatures_feePerKb (t : Transaction) :
    (_clearSignatures t)._feePerKb = t._feePerKb := rfl

@[simp] theorem fillCaches_inputs (t : Transaction) :
    (fillCaches t).inputs = t.inputs := rfl
@[simp] theorem fillCaches_outputs (t : Transaction) :
    (fillCaches t).outputs = t.outputs := rfl
@[simp] theorem fillCaches_changeScript (t : Transaction) :
    (fillCaches t)._changeScript = t._changeScript := rfl
@[simp] theorem fillCaches_changeIndex (t : Transaction) :
    (fillCaches t)._changeIndex = t._changeIndex := rfl
@[simp] theorem fillCaches_fee (t : Transaction) :
    (fillCaches t)._fee = t._fee := rfl
@[simp] theorem fillCaches_feePerKb (t : Transaction) :
    (fillCaches t)._feePerKb = t._feePerKb := rfl
@[simp] theorem fillCaches_inputAmount (t : Transaction) :
    (fillCaches t)._inputAmount = some (inputTotalD t) := rfl
@[simp] theorem fillCaches_outputAmount (t : Transaction) :
    (fillCaches t)._outputAmount = some (outputsTotal t.outputs) := rfl

theorem allUtxo_clearSig (t : Transaction) :
    allUtxo (_clearSignatures t) = allUtxo t := by
  show (t.inputs.map Input.clearSig).all (fun i => i.output.isSome) = _
  rw [List.all_map]
  rfl

@[simp] theorem inputTotalD_clearSig (t : Transaction) :
    inputTotalD (_clearSignatures t) = inputTotalD t := by
  show inputsTotal (t.inputs.map Input.clearSig) = inputsTotal t.inputs
  exact inputsTotal_clearSig t.inputs

@[simp] theorem isCoinbase_fill (t : Transaction) :
    (fillCaches t).isCoinbase = t.isCoinbase := rfl
@[simp] theorem inputTotalD_fill (t : Transaction) :
    inputTotalD (fillCaches t) = inputTotalD t := rfl
@[simp] theorem unspentD_fill (t : Transaction) :
    unspentD (fillCaches t) = unspentD t := rfl
@[simp] theorem estimateSize_fill (t : Transaction) :
    _estimateSize (fillCaches t) = _estimateSize t := rfl
@[simp] theorem getFeePure_fill (t : Transaction) :
    getFeePure (fillCaches t) = getFeePure t := rfl
@[simp] theorem allUtxo_fill (t : Transaction) :
    allUtxo (fillCaches t) = allUtxo t := rfl

/- Eta helpers for already-filled caches -/

theorem eta_inputAmount {t : Transaction} {v : Int} (h : t._inputAmount = some v) :
    ({ t with _inputAmount := some v } : Transaction) = t := by
  cases t
  simp only at h
  simp [h]

theorem eta_outputAmount {t : Transaction} {v : Int} (h : t._outputAmount = some v) :
    ({ t with _outputAmount := some v } : Transaction) = t := by
  cases t
  simp only at h
  simp [h]

/- Getter characterizations -/

theorem sumInputAmounts_of_all {l : List Input}
    (h : l.all (fun i => i.output.isSome) = true) :
    sumInputAmounts l = .ok (inputsTotal l) := by
  induction l with
  | nil => rfl
  | cons i rest ih =>
    simp only [List.all_cons, Bool.and_eq_true] at h
    cases ho : i.output with
    | none => rw [ho] at h; simp at h
    | some o =>
      rw [sumInputAmounts, ho, ih h.2]
      simp [ho]

theorem sumInputAmounts_err {l : List Input}
    (h : l.all (fun i => i.output.isSome) = false) :
    sumInputAmounts l = .error .MissingPreviousOutput := by
  induction l with
  | nil => simp at h
  | cons i rest ih =>
    cases ho : i.output with
    | none => rw [sumInputAmounts, ho]
    | some o =>
      simp only [List.all_cons, Bool.and_eq_true] at h
      rw [sumInputAmounts, ho]
      have hrest : rest.all (fun i => i.output.isSome) = false := by
        cases hr : rest.all (fun i => i.output.isSome) with
        | false => rfl
        | true => rw [ho] at h; simp [hr] at h
      rw [ih hrest]

theorem _getInputAmount_eq {t : Transaction}
    (hc : ∀ w, t._inputAmount = some w → allUtxo t = true ∧ w = inputTotalD t)
    (hall : allUtxo t = true) :
    _getInputAmount t = .ok (inputTotalD t, { t with _inputAmount := some (inputTotalD t) }) := by
  unfold _getInputAmount
  cases hia : t._inputAmount with
  | some w =>
    obtain ⟨_, rfl⟩ := hc w hia
    rw [eta_inputAmount hia]
  | none => rw [sumInputAmounts_of_all hall]; rfl

theorem _getInputAmount_err {t : Transaction}
    (hc : ∀ w, t._inputAmount = some w → allUtxo t = true ∧ w = inputTotalD t)
    (hall : allUtxo t = false) :
    _getInputAmount t = .error .MissingPreviousOutput := by
  unfold _getInputAmount
  cases hia : t._inputAmount with
  | some w => rw [(hc w hia).1] at hall; cases hall
  | none => rw [sumInputAmounts_err hall]

theorem _getOutputAmount_eq {t : Transaction}
    (hc : ∀ w, t._outputAmount = some w → w = outputsTotal t.outputs) :
    _getOutputAmount t
      = .ok (outputsTotal t.outputs, { t with _outputAmount := some (outputsTotal t.outputs) }) := by
  unfold _getOutputAmount
  cases hoa : t._outputAmount with
  | some w =>
    obtain rfl := hc w hoa
    rw [eta_outputAmount hoa]
  | none => rfl

theorem _getUnspentValue_eq {t : Transaction} (hc : cachesCoherent t)
    (hall : allUtxo t = true) :
    _getUnspentValue t = .ok (unspentD t, fillCaches t) := by
  unfold _getUnspentValue
  rw [_getInputAmount_eq hc.1 hall]
  dsimp only
  rw [@_getOutputAmount_eq { t with _inputAmount := some (inputTotalD t) }
    (fun w hw => hc.2 w hw)]
  rfl

theorem _getUnspentValue_err {t : Transaction} (hc : cachesCoherent t)
    (hall : allUtxo t = false) :
    _getUnspentValue t = .error .MissingPreviousOutput := by
  unfold _getUnspentValue
  rw [_getInputAmount_err hc.1 hall]

theorem _getUnspentValue_ok {t : Transaction} {v : Int} {t' : Transaction}
    (hc : cachesCoherent t)
    (h : _getUnspentValue t = .ok (v, t')) :
    v = unspentD t ∧ allUtxo t = true ∧ t' = fillCaches t := by
  cases hall : allUtxo t with
  | true =>
    rw [_getUnspentValue_eq hc hall] at h
    simp only [Except.ok.injEq, Prod.mk.injEq] at h
    exact ⟨h.1.symm, rfl, h.2.symm⟩
  | false => rw [_getUnspentValue_err hc hall] at h; cases h

theorem _getUnspentValue_fill (t : Transaction) :
    _getUnspentValue (fillCaches t) = .ok (unspentD t, fillCaches t) := rfl

theorem _estimateFee_fill (t : Transaction) :
    _estimateFee (fillCaches t)
      = .ok (_estimateFeeStatic (_estimateSize t) (unspentD t) t._feePerKb, fillCaches t) := rfl

theorem getFee_fill (t : Transaction) :
    getFee (fillCaches t) = .ok (getFeePure t, fillCaches t) := by
  unfold getFee getFeePure
  simp only [isCoinbase_fill, fillCaches_fee, fillCaches_changeScript]
  cases hcb : t.isCoinbase with
  | true => simp
  | false =>
    simp only [Bool.false_eq_true, if_false]
    cases hf : t._fee with
    | some f => simp
    | none =>
      cases hcs : t._changeScript with
      | none => exact _getUnspentValue_fill t
      | some cs => exact _estimateFee_fill t

/- Projection lemmas for `_addOutput` and `_removeOutput` -/

@[simp] theorem addOut_inputs (t : Transaction) (o : Output) :
    (_addOutput t o).inputs = t.inputs := rfl
@[simp] theorem addOut_outputs (t : Transaction) (o : Output) :
    (_addOutput t o).outputs = t.outputs ++ [o] := rfl
@[simp] theorem addOut_inputAmount (t : Transaction) (o : Output) :
    (_addOutput t o)._inputAmount = t._inputAmount := rfl
@[simp] theorem addOut_outputAmount (t : Transaction) (o : Output) :
    (_addOutput t o)._outputAmount = none := rfl
@[simp] theorem addOut_changeScript (t : Transaction) (o : Output) :
    (_addOutput t o)._changeScript = t._changeScript := rfl
@[simp] theorem addOut_changeIndex (t : Transaction) (o : Output) :
    (_addOutput t o)._changeIndex = t._changeIndex := rfl
@[simp] theorem addOut_fee (t : Transaction) (o : Output) :
    (_addOutput t o)._fee = t._fee := rfl
@[simp] theorem addOut_feePerKb (t : Transaction) (o : Output) :
    (_addOutput t o)._feePerKb = t._feePerKb := rfl

@[simp] theorem removeOut_inputs (t : Transaction) (i : Int) :
    (_removeOutput t i).inputs = t.inputs := by
  unfold _removeOutput; split <;> rfl
@[simp] theorem removeOut_inputAmount (t : Transaction) (i : Int) :
    (_removeOutput t i)._inputAmount = t._inputAmount := by
  unfold _removeOutput; split <;> rfl
@[simp] theorem removeOut_outputAmount (t : Transaction) (i : Int) :
    (_removeOutput t i)._outputAmount = none := by
  unfold _removeOutput; split <;> rfl
@[simp] theorem removeOut_changeScript (t : Transaction) (i : Int) :
    (_removeOutput t i)._changeScript = t._changeScript := by
  unfold _removeOutput; split <;> rfl
@[simp] theorem removeOut_changeIndex (t : Transaction) (i : Int) :
    (_removeOutput t i)._changeIndex = t._changeIndex := by
  unfold _removeOutput; split <;> rfl
@[simp] theorem removeOut_fee (t : Transaction) (i : Int) :
    (_removeOutput t i)._fee = t._fee := by
  unfold _removeOutput; split <;> rfl
@[simp] theorem removeOut_feePerKb (t : Transaction) (i : Int) :
    (_removeOutput t i)._feePerKb = t._feePerKb := by
  unfold _removeOutput; split <;> rfl

/- Coherence preservation -/

theorem coherent_clearSig {t : Transaction} (hc : cachesCoherent t) :
    cachesCoherent (_clearSignatures t) := by
  constructor
  · intro v hv
    rw [clearSignatures_inputAmount] at hv
    obtain ⟨h1, h2⟩ := hc.1 v hv
    constructor
    · rw [allUtxo_clearSig]; exact h1
    · rw [inputTotalD_clearSig]; exact h2
  · intro v hv
    rw [clearSignatures_outputAmount] at hv
    rw [clearSignatures_outputs]
    exact hc.2 v hv

theorem coherent_removeOutput {t : Transaction} (i : Int) (hc : cachesCoherent t) :
    cachesCoherent (_removeOutput t i) := by
  constructor
  · intro v hv
    rw [removeOut_inputAmount] at hv
    obtain ⟨h1, h2⟩ := hc.1 v hv
    constructor
    · show (_removeOutput t i).inputs.all _ = true
      rw [removeOut_inputs]
      exact h1
    · show v = inputsTotal (_removeOutput t i).inputs
      rw [removeOut_inputs]
      exact h2
  · intro v hv
    rw [removeOut_outputAmount] at hv
    cases hv

/- The change-maintenance master lemmas -/

theorem updateChangeBody_ok {cs : Script} {w t' : Transaction}
    (hc : cachesCoherent w) (hcs : w._changeScript = some cs)
    (h : _updateChangeBody cs w = .ok t') :
    cachesCoherent t' ∧ changePostInv t' ∧ t'._changeScript = some cs ∧
      t'.inputs = w.inputs := by
  unfold _updateChangeBody at h
  cases hguv : _getUnspentValue w with
  | error e => rw [hguv] at h; cases h
  | ok p =>
    obtain ⟨avail, t3⟩ := p
    obtain ⟨rfl, hall, rfl⟩ := _getUnspentValue_ok hc hguv
    rw [hguv] at h
    dsimp only at h
    rw [getFee_fill] at h
    dsimp only at h
    by_cases hpos : unspentD w - getFeePure w > 0
    · rw [if_pos hpos] at h
      simp only [Except.ok.injEq] at h
      subst h
      refine ⟨⟨?_, ?_⟩, ⟨?_, ?_⟩, hcs, rfl⟩
      · intro v hv
        simp only [addOut_inputAmount, fillCaches_inputAmount, Option.some.injEq] at hv
        subst hv
        exact ⟨hall, rfl⟩
      · intro v hv
        rw [addOut_outputAmount] at hv
        cases hv
      · intro hnone
        rw [addOut_changeScript, fillCaches_changeScript] at hnone
        rw [hcs] at hnone
        cases hnone
      · intro cs' hcs'
        rw [addOut_changeScript, fillCaches_changeScript, hcs] at hcs'
        obtain rfl : cs = cs' := by injection hcs'
        constructor
        · intro k hk
          simp only [addOut_changeIndex, fillCaches_outputs, Option.some.injEq] at hk
          obtain rfl : w.outputs.length = k := hk
          have hlen : w.outputs.length
              < (_addOutput { fillCaches w with _changeIndex := some w.outputs.length }
                { script := cs, satoshis := unspentD w - getFeePure w }).outputs.length := by
            simp
          refine ⟨hlen, ?_, ?_, ?_⟩
          · simp only [addOut_outputs, fillCaches_outputs, get_concat]
          · simp only [addOut_outputs, fillCaches_outputs, get_concat, eraseIdx_concat]
            rfl
          · simp only [addOut_outputs, fillCaches_outputs, eraseIdx_concat]
            exact hpos
        · intro hk
          simp at hk
    · rw [if_neg hpos] at h
      simp only [Except.ok.injEq] at h
      subst h
      refine ⟨⟨?_, ?_⟩, ⟨?_, ?_⟩, hcs, rfl⟩
      · intro v hv
        simp only [fillCaches_inputAmount, Option.some.injEq] at hv
        subst hv
        exact ⟨hall, rfl⟩
      · intro v hv
        simp only [fillCaches_outputAmount, Option.some.injEq] at hv
        subst hv
        rfl
      · intro hnone
        rfl
      · intro cs' hcs'
        constructor
        · intro k hk
          cases hk
        · intro _
          exact not_lt.mp hpos

theorem updateChange_ok {u t' : Transaction} (hc : cachesCoherent u)
    (hn : u._changeScript = none → u._changeIndex = none)
    (h : _updateChangeOutput u = .ok t') :
    cachesCoherent t' ∧ (t'._changeScript = none → t'._changeIndex = none) ∧
      changePostInv t' ∧ t'._changeScript = u._changeScript ∧
      (u._changeScript = none → t' = u) := by
  unfold _updateChangeOutput at h
  cases hcs : u._changeScript with
  | none =>
    rw [hcs] at h
    dsimp only at h
    simp only [Except.ok.injEq] at h
    subst h
    refine ⟨hc, hn, ⟨hn, ?_⟩, hcs, fun _ => rfl⟩
    intro cs hcs2
    rw [hcs] at hcs2
    cases hcs2
  | some cs =>
    rw [hcs] at h
    dsimp only at h
    cases hci : u._changeIndex with
    | none =>
      rw [clearSignatures_changeIndex, hci] at h
      dsimp only at h
      obtain ⟨hco, hpi, hsc, hin⟩ :=
        updateChangeBody_ok (coherent_clearSig hc) (by rw [clearSignatures_changeScript, hcs]) h
      refine ⟨hco, ?_, hpi, ?_, ?_⟩
      · intro hnone
        rw [hsc] at hnone
        cases hnone
      · exact hsc
      · intro habs
        cases habs
    | some i =>
      rw [clearSignatures_changeIndex, hci] at h
      dsimp only at h
      obtain ⟨hco, hpi, hsc, hin⟩ :=
        updateChangeBody_ok (coherent_removeOutput _ (coherent_clearSig hc))
          (by rw [removeOut_changeScript, clearSignatures_changeScript, hcs]) h
      refine ⟨hco, ?_, hpi, ?_, ?_⟩
      · intro hnone
        rw [hsc] at hnone
        cases hnone
      · exact hsc
      · intro habs
        cases habs

/- Coherence of the mutator tweaks -/

theorem coherent_setInputs {t : Transaction} (hc : cachesCoherent t) (l : List Input) :
    cachesCoherent { t with inputs := l, _inputAmount := none } := by
  refine ⟨fun v hv => by simp at hv, fun v hv => hc.2 v hv⟩

theorem coherent_setOutputs {t : Transaction} (hc : cachesCoherent t) (l : List Output) :
    cachesCoherent { t with outputs := l, _outputAmount := none } := by
  refine ⟨fun v hv => hc.1 v hv, fun v hv => by simp at hv⟩

theorem coherent_setFee {t : Transaction} (hc : cachesCoherent t) (a : Option Int) :
    cachesCoherent { t with _fee := a } :=
  ⟨fun v hv => hc.1 v hv, fun v hv => hc.2 v hv⟩

theorem coherent_setFeePerKb {t : Transaction} (hc : cachesCoherent t) (a : Option Int) :
    cachesCoherent { t with _feePerKb := a } :=
  ⟨fun v hv => hc.1 v hv, fun v hv => hc.2 v hv⟩

theorem coherent_setChangeScript {t : Transaction} (hc : cachesCoherent t) (s : Option Script) :
    cachesCoherent { t with _changeScript := s } :=
  ⟨fun v hv => hc.1 v hv, fun v hv => hc.2 v hv⟩

theorem coherent_clearOutputsTweak {t : Transaction} (hc : cachesCoherent t) :
    cachesCoherent { _clearSignatures { t with outputs := ([] : List Output) } with
      _outputAmount := none, _changeIndex := none } := by
  refine ⟨fun v hv => ?_, fun v hv => by simp at hv⟩
  obtain ⟨h1, h2⟩ := hc.1 v hv
  constructor
  · show (t.inputs.map Input.clearSig).all _ = true
    rw [List.all_map]
    exact h1
  · show v = inputsTotal (t.inputs.map Input.clearSig)
    rw [inputsTotal_clearSig]
    exact h2

/- Every public mutation preserves the reachable-state facts and establishes
the post-mutation change property -/

theorem updateOk3 {u t' : Transaction} (hcu : cachesCoherent u)
    (hnu : u._changeScript = none → u._changeIndex = none)
    (hh : _updateChangeOutput u = .ok t') :
    cachesCoherent t' ∧ (t'._changeScript = none → t'._changeIndex = none) ∧
      changePostInv t' :=
  ⟨(updateChange_ok hcu hnu hh).1, (updateChange_ok hcu hnu hh).2.1,
    (updateChange_ok hcu hnu hh).2.2.1⟩

theorem removeInputAt_ok {t t' : Transaction} {index : Int}
    (hc : cachesCoherent t) (hn : t._changeScript = none → t._changeIndex = none)
    (h : removeInputAt t index = .ok t') :
    cachesCoherent t' ∧ (t'._changeScript = none → t'._changeIndex = none) ∧
      changePostInv t' := by
  unfold removeInputAt at h
  split at h
  · cases h
  · exact updateOk3 (coherent_setInputs hc (t.inputs.eraseIdx index.toNat))
      (fun hh => hn hh) h

theorem mutation_ok {m : Mutation} {t t' : Transaction}
    (hc : cachesCoherent t) (hn : t._changeScript = none → t._changeIndex = none)
    (h : applyMutation m t = .ok t') :
    cachesCoherent t' ∧ (t'._changeScript = none → t'._changeIndex = none) ∧
      changePostInv t' := by
  cases m with
  | addInput i os sat =>
    simp only [applyMutation] at h
    unfold addInput at h
    split at h
    · cases h
    · unfold uncheckedAddInput at h
      exact updateOk3 (coherent_setInputs hc _) (fun hh => hn hh) h
  | uncheckedAddInput i =>
    simp only [applyMutation] at h
    unfold uncheckedAddInput at h
    exact updateOk3 (coherent_setInputs hc (t.inputs ++ [i])) (fun hh => hn hh) h
  | addOutput o =>
    simp only [applyMutation] at h
    unfold addOutput at h
    exact updateOk3 (coherent_setOutputs hc (t.outputs ++ [o])) (fun hh => hn hh) h
  | toAddress s amount =>
    simp only [applyMutation] at h
    unfold toAddress at h
    split at h
    · cases h
    · unfold addOutput at h
      exact @updateOk3 (_addOutput t { script := s, satoshis := amount }) t'
        (coherent_setOutputs hc _) (fun hh => hn hh) h
  | addData s =>
    simp only [applyMutation] at h
    unfold addData addOutput at h
    exact @updateOk3 (_addOutput t { script := s, satoshis := 0 }) t'
      (coherent_setOutputs hc _) (fun hh => hn hh) h
  | removeInputAt index =>
    simp only [applyMutation] at h
    exact removeInputAt_ok hc hn h
  | removeInputCoord txId oi =>
    simp only [applyMutation] at h
    unfold removeInputCoord at h
    exact removeInputAt_ok hc hn h
  | removeOutput index =>
    simp only [applyMutation] at h
    unfold removeOutput at h
    refine updateOk3 (coherent_removeOutput _ hc) ?_ h
    intro hh
    rw [removeOut_changeScript] at hh
    rw [removeOut_changeIndex]
    exact hn hh
  | clearOutputs =>
    simp only [applyMutation] at h
    unfold clearOutputs at h
    dsimp only at h
    exact updateOk3 (coherent_clearOutputsTweak hc) (fun _ => rfl) h
  | setFee amount =>
    simp only [applyMutation] at h
    unfold fee at h
    exact @updateOk3 { t with _fee := some amount } t'
      (coherent_setFee hc (some amount)) (fun hh => hn hh) h
  | setFeePerKb amount =>
    simp only [applyMutation] at h
    unfold feePerKb at h
    exact @updateOk3 { t with _feePerKb := some amount } t'
      (coherent_setFeePerKb hc (some amount)) (fun hh => hn hh) h
  | change s =>
    simp only [applyMutation] at h
    unfold change at h
    refine @updateOk3 { t with _changeScript := some s } t'
      (coherent_setChangeScript hc (some s)) ?_ h
    intro hh
    simp at hh

/- Reachable states carry the invariant -/

theorem reachable_inv {t : Transaction} (h : Reachable t) :
    cachesCoherent t ∧ (t._changeScript = none → t._changeIndex = none) ∧
      changeIdxConsistent t := by
  induction h with
  | base =>
    refine ⟨⟨?_, ?_⟩, fun _ => rfl, ?_⟩
    · intro v hv
      cases hv
    · intro v hv
      cases hv
    · intro k hk
      cases hk
  | step m t t' ht happ ih =>
    obtain ⟨hc', hn', hpi⟩ := mutation_ok ih.1 ih.2.1 happ
    refine ⟨hc', hn', ?_⟩
    intro k hk
    cases hcs : t'._changeScript with
    | none => rw [hn' hcs] at hk; cases hk
    | some cs =>
      obtain ⟨hsome, _⟩ := hpi.2 cs hcs
      obtain ⟨hlen, hscript, _, _⟩ := hsome k hk
      exact ⟨cs, rfl, hlen, hscript⟩

/- Error characterizations: the only exception the fee/change engine can
raise is `MissingPreviousOutput` -/

theorem sumInputAmounts_error {l : List Input} {e : TxError}
    (h : sumInputAmounts l = .error e) : e = .MissingPreviousOutput := by
  induction l with
  | nil => cases h
  | cons i rest ih =>
    rw [sumInputAmounts] at h
    cases ho : i.output with
    | none =>
      rw [ho] at h
      cases h
      rfl
    | some o =>
      rw [ho] at h
      cases hr : sumInputAmounts rest with
      | error e2 =>
        rw [hr] at h
        cases h
        exact ih hr
      | ok s => rw [hr] at h; cases h

theorem _getInputAmount_error {t : Transaction} {e : TxError}
    (h : _getInputAmount t = .error e) : e = .MissingPreviousOutput := by
  unfold _getInputAmount at h
  cases hia : t._inputAmount with
  | some v => rw [hia] at h; cases h
  | none =>
    rw [hia] at h
    cases hs : sumInputAmounts t.inputs with
    | error e2 =>
      rw [hs] at h
      cases h
      exact sumInputAmounts_error hs
    | ok s => rw [hs] at h; cases h

theorem _getUnspentValue_error {t : Transaction} {e : TxError}
    (h : _getUnspentValue t = .error e) : e = .MissingPreviousOutput := by
  unfold _getUnspentValue at h
  cases hi : _getInputAmount t with
  | error e2 =>
    rw [hi] at h
    cases h
    exact _getInputAmount_error hi
  | ok p =>
    obtain ⟨v, t1⟩ := p
    rw [hi] at h
    dsimp only at h
    cases ho : _getOutputAmount t1 with
    | error e2 =>
      unfold _getOutputAmount at ho
      cases hoa : t1._outputAmount with
      | some w => rw [hoa] at ho; cases ho
      | none => rw [hoa] at ho; cases ho
    | ok q => rw [ho] at h; cases h

theorem _estimateFee_error {t : Transaction} {e : TxError}
    (h : _estimateFee t = .error e) : e = .MissingPreviousOutput := by
  unfold _estimateFee at h
  cases hu : _getUnspentValue t with
  | error e2 =>
    rw [hu] at h
    cases h
    exact _getUnspentValue_error hu
  | ok p => rw [hu] at h; cases h

theorem getFee_error {t : Transaction} {e : TxError}
    (h : getFee t = .error e) : e = .MissingPreviousOutput := by
  unfold getFee at h
  split at h
  · cases h
  · cases hf : t._fee with
    | some f => rw [hf] at h; cases h
    | none =>
      rw [hf] at h
      cases hcs : t._changeScript with
      | none => rw [hcs] at h; exact _getUnspentValue_error h
      | some cs => rw [hcs] at h; exact _estimateFee_error h

theorem updateChangeBody_error {cs : Script} {w : Transaction} {e : TxError}
    (h : _updateChangeBody cs w = .error e) : e = .MissingPreviousOutput := by
  unfold _updateChangeBody at h
  cases hu : _getUnspentValue w with
  | error e2 =>
    rw [hu] at h
    cases h
    exact _getUnspentValue_error hu
  | ok p =>
    obtain ⟨avail, t3⟩ := p
    rw [hu] at h
    dsimp only at h
    cases hg : getFee t3 with
    | error e2 =>
      rw [hg] at h
      cases h
      exact getFee_error hg
    | ok q =>
      obtain ⟨f, t4⟩ := q
      rw [hg] at h
      dsimp only at h
      split at h <;> cases h

theorem updateChange_error {u : Transaction} {e : TxError}
    (h : _updateChangeOutput u = .error e) : e = .MissingPreviousOutput := by
  unfold _updateChangeOutput at h
  cases hcs : u._changeScript with
  | none => rw [hcs] at h; cases h
  | some cs =>
    rw [hcs] at h
    dsimp only at h
    exact updateChangeBody_error h

/- Frame lemmas: the getters never change the input list -/

theorem _getInputAmount_inputs {t : Transaction} {v : Int} {t' : Transaction}
    (h : _getInputAmount t = .ok (v, t')) : t'.inputs = t.inputs := by
  unfold _getInputAmount at h
  cases hia : t._inputAmount with
  | some w =>
    rw [hia] at h
    simp only [Except.ok.injEq, Prod.mk.injEq] at h
    rw [← h.2]
  | none =>
    rw [hia] at h
    cases hs : sumInputAmounts t.inputs with
    | error e => rw [hs] at h; cases h
    | ok s =>
      rw [hs] at h
      simp only [Except.ok.injEq, Prod.mk.injEq] at h
      rw [← h.2]

theorem _getOutputAmount_inputs {t : Transaction} {v : Int} {t' : Transaction}
    (h : _getOutputAmount t = .ok (v, t')) : t'.inputs = t.inputs := by
  unfold _getOutputAmount at h
  cases hoa : t._outputAmount with
  | some w =>
    rw [hoa] at h
    simp only [Except.ok.injEq, Prod.mk.injEq] at h
    rw [← h.2]
  | none =>
    rw [hoa] at h
    simp only [Except.ok.injEq, Prod.mk.injEq] at h
    rw [← h.2]

theorem _getUnspentValue_inputs {t : Transaction} {v : Int} {t' : Transaction}
    (h : _getUnspentValue t = .ok (v, t')) : t'.inputs = t.inputs := by
  unfold _getUnspentValue at h
  cases hi : _getInputAmount t with
  | error e => rw [hi] at h; cases h
  | ok p =>
    obtain ⟨iv, t1⟩ := p
    rw [hi] at h
    dsimp only at h
    cases ho : _getOutputAmount t1 with
    | error e => rw [ho] at h; cases h
    | ok q =>
      obtain ⟨ov, t2⟩ := q
      rw [ho] at h
      simp only [Except.ok.injEq, Prod.mk.injEq] at h
      rw [← h.2]
      rw [_getOutputAmount_inputs ho, _getInputAmount_inputs hi]

theorem _estimateFee_inputs {t : Transaction} {v : Int} {t' : Transaction}
    (h : _estimateFee t = .ok (v, t')) : t'.inputs = t.inputs := by
  unfold _estimateFee at h
  cases hu : _getUnspentValue t with
  | error e => rw [hu] at h; cases h
  | ok p =>
    obtain ⟨a, t1⟩ := p
    rw [hu] at h
    simp only [Except.ok.injEq, Prod.mk.injEq] at h
    rw [← h.2]
    exact _getUnspentValue_inputs hu

theorem getFee_inputs {t : Transaction} {v : Int} {t' : Transaction}
    (h : getFee t = .ok (v, t')) : t'.inputs = t.inputs := by
  unfold getFee at h
  split at h
  · simp only [Except.ok.injEq, Prod.mk.injEq] at h
    rw [← h.2]
  · cases hf : t._fee with
    | some f =>
      rw [hf] at h
      simp only [Except.ok.injEq, Prod.mk.injEq] at h
      rw [← h.2]
    | none =>
      rw [hf] at h
      cases hcs : t._changeScript with
      | none => rw [hcs] at h; exact _getUnspentValue_inputs h
      | some cs => rw [hcs] at h; exact _estimateFee_inputs h

theorem updateChangeBody_inputs {cs : Script} {w t' : Transaction}
    (h : _updateChangeBody cs w = .ok t') : t'.inputs = w.inputs := by
  unfold _updateChangeBody at h
  cases hu : _getUnspentValue w with
  | error e => rw [hu] at h; cases h
  | ok p =>
    obtain ⟨avail, t3⟩ := p
    rw [hu] at h
    dsimp only at h
    cases hg : getFee t3 with
    | error e => rw [hg] at h; cases h
    | ok q =>
      obtain ⟨f, t4⟩ := q
      rw [hg] at h
      dsimp only at h
      split at h <;>
        (simp only [Except.ok.injEq] at h
         subst h
         simp only [addOut_inputs]
         rw [getFee_inputs hg, _getUnspentValue_inputs hu])

/- Additional fixtures for witnesses -/


/- Claim theorems -/

/-- Claim C1 (confirmed).  Change-output invariant: (1) after every public
mutation (`addInput`, `uncheckedAddInput`, `addOutput`, `to`, `addData`,
`removeInput`, `removeOutput`, `clearOutputs`, `fee`, `feePerKb`, `change`)
that returns successfully from a reachable state, the post state satisfies
`changePostInv`: with a change script configured, a defined change index
tracks exactly one existing output whose script is the change script and
whose amount is `available - fee` (available = input total minus the
non-change outputs, fee = `getFee()` at the state of the most recent
recomputation, i.e. with the change output removed), that difference being
positive; an undefined index means no positive change remained; with no
change script the index is undefined.  (2) In every reachable state, a
defined change index implies the change script is set and equals the script
of the output at that index. -/
theorem claimC1_changeOutputInvariant :
    (∀ (m : Mutation) (t t' : Transaction), Reachable t → applyMutation m t = .ok t' →
      changePostInv t') ∧
    (∀ t : Transaction, Reachable t → changeIdxConsistent t) := by
  constructor
  · intro m t t' ht happ
    obtain ⟨hc, hn, _⟩ := reachable_inv ht
    exact (mutation_ok hc hn happ).2.2
  · intro t ht
    exact (reachable_inv ht).2.2

/-- Witness for C1 at a concrete mutation: `fee 5` on a fresh transaction. -/
theorem claimC1_witness :
    changePostInv txC1W ∧ changeIdxConsistent newTransaction :=
  ⟨claimC1_changeOutputInvariant.1 (.setFee 5) newTransaction txC1W Reachable.base rfl,
    claimC1_changeOutputInvariant.2 newTransaction Reachable.base⟩

/-- Claim C2 (code bug).  `sign` opens with
`$.checkState(this.hasAllUtxoInfo(), ...)`, but `hasAllUtxoInfo` returns the
ARRAY `inputs.map(input => !!input.output)` (its doc comment promises a
boolean).  An array is always truthy in JS, so the guard passes for every
transaction — in particular for `txC2`, whose input carries no spent-output
information, where the claim requires a fatal precondition error. -/
theorem claimC2_signGuardNeverFails :
    (∀ t : Transaction, signPrecheck t = .ok ()) ∧
    txC2.inputs.any (fun i => i.output.isNone) = true :=
  ⟨fun _ => rfl, by decide⟩

/-- Counterexample to claim C3 as stated: `txC3` is non-coinbase, fully
funded, has no change script — but carries an explicit fee override of 7,
and `getFee()` returns 7 rather than `inputTotal - outputTotal = 700`. -/
theorem claimC3_counterexample :
    txC3.isCoinbase = false ∧ allUtxo txC3 = true ∧ txC3._changeScript = none ∧
    (getFee txC3).map Prod.fst = .ok 7 ∧
    inputTotalD txC3 - outputsTotal txC3.outputs = 700 ∧ (7 : Int) ≠ 700 := by
  refine ⟨rfl, rfl, rfl, rfl, rfl, by decide⟩

/-- Claim C3 (amended): for every non-coinbase transaction whose inputs all
carry their spent-output amounts, with no change script configured AND no
explicit fee override set, `getFee()` returns exactly the total input amount
minus the total output amount. -/
theorem claimC3_amended {t : Transaction} (hc : cachesCoherent t)
    (hcb : t.isCoinbase = false) (hall : allUtxo t = true)
    (hcs : t._changeScript = none) (hf : t._fee = none) :
    getFee t = .ok (inputTotalD t - outputsTotal t.outputs, fillCaches t) := by
  unfold getFee
  rw [hcb, hf, hcs]
  exact _getUnspentValue_eq hc hall

/-- Witness for C3 (amended) at `txC3W`. -/
theorem claimC3_witness :
    getFee txC3W = .ok (inputTotalD txC3W - outputsTotal txC3W.outputs, fillCaches txC3W) :=
  @claimC3_amended txC3W
    ⟨(fun v hv => nomatch hv), (fun v hv => nomatch hv)⟩
    (by decide) (by decide) rfl rfl

/-- Counterexample to claim C4 as stated: with a `feePerKb` override of 0,
`Transaction._estimateFee` reads the rate through the truthiness guard
`feePerKb || FEE_PER_KB` and so uses the default 100000, not the override:
the code returns 100000 where the claim's formula (rate = the override
whenever set) yields 0. -/
theorem claimC4_counterexample :
    txC4._feePerKb = some 0 ∧
    (_estimateFee txC4).map Prod.fst = .ok 100000 ∧
    claimedEstimatedFee txC4 = 0 ∧ (100000 : Int) ≠ 0 := by
  refine ⟨rfl, rfl, by decide, by decide⟩

/-- The static fee-estimation formula agrees with the amended claim C4
formula. -/
theorem estimateFeeStatic_eq_amended (t : Transaction) :
    _estimateFeeStatic (_estimateSize t) (unspentD t) t._feePerKb
      = amendedEstimatedFee t := by
  unfold _estimateFeeStatic amendedEstimatedFee
  cases hk : t._feePerKb with
  | none =>
    dsimp only
    split <;> rfl
  | some r =>
    dsimp only
    by_cases hr : r = 0 <;> simp only [hr, if_pos, if_neg, if_true, if_false] <;> split <;> rfl

/-- Claim C4 (amended): `_estimateFee` computes a first-pass fee
`ceil(estimatedSize/1000) * rate` where `rate` is the `feePerKb` override
when set to a nonzero value and 100000 otherwise (the override is read
through a JS truthiness guard, so an override of 0 falls back to the
default); `estimatedSize` is the fixed margin plus input size estimates plus
`scriptLength + 9` per output; when the unspent value exceeds the first-pass
fee, the fee is recomputed over `estimatedSize + CHANGE_OUTPUT_MAX_SIZE`. -/
theorem claimC4_amended {t : Transaction} (hc : cachesCoherent t)
    (hall : allUtxo t = true) :
    _estimateFee t = .ok (amendedEstimatedFee t, fillCaches t) := by
  unfold _estimateFee
  rw [_getUnspentValue_eq hc hall]
  dsimp only
  rw [show (fillCaches t)._feePerKb = t._feePerKb from rfl,
    estimateFeeStatic_eq_amended t]

/-- Witness for C4 (amended) at `txC3W`. -/
theorem claimC4_witness :
    _estimateFee txC3W = .ok (amendedEstimatedFee txC3W, fillCaches txC3W) :=
  @claimC4_amended txC3W
    ⟨(fun v hv => nomatch hv), (fun v hv => nomatch hv)⟩
    (by decide)

/-- Counterexample to claim C7 as stated: index 5 is outside `[0, 1)`, yet
`removeOutput` succeeds — it removes nothing and raises no invalid-index
error (the bounds check exists only in `removeInput`). -/
theorem claimC7_counterexample :
    removeOutput txC7 5 = .ok txC7 ∧ txC7.outputs.length = 1 := ⟨rfl, rfl⟩

/-- Claim C7 (amended): an in-range `removeOutput(index)` removes the output
at that position, invalidates the output-amount cache and re-runs change
maintenance; an out-of-range index is NOT rejected — no invalid-index error
is raised, nothing is removed, but the cache is still invalidated and change
maintenance re-runs; the only error the call can raise is
`MissingPreviousOutput` escaping from change maintenance. -/
theorem claimC7_amended (t : Transaction) (index : Int) :
    (0 ≤ index → index.toNat < t.outputs.length →
      removeOutput t index
        = _updateChangeOutput
            { t with outputs := t.outputs.eraseIdx index.toNat, _outputAmount := none }) ∧
    (¬(0 ≤ index ∧ index.toNat < t.outputs.length) →
      removeOutput t index = _updateChangeOutput { t with _outputAmount := none }) ∧
    (∀ e, removeOutput t index = .error e → e = .MissingPreviousOutput) := by
  refine ⟨?_, ?_, ?_⟩
  · intro h1 h2
    unfold removeOutput _removeOutput
    rw [if_pos ⟨h1, h2⟩]
  · intro hno
    unfold removeOutput _removeOutput
    rw [if_neg hno]
  · intro e he
    unfold removeOutput at he
    exact updateChange_error he

/-- Witness for C7 (amended) at the in-range index 0 of `txC7`. -/
theorem claimC7_witness :
    removeOutput txC7 0
      = _updateChangeOutput
          { txC7 with outputs := txC7.outputs.eraseIdx (0 : Int).toNat, _outputAmount := none } :=
  (claimC7_amended txC7 0).1 (by decide) (by decide)

/-- Counterexample to claim C8 as stated: with no change script configured,
`fee(3)` only records the override — `_updateChangeOutput` returns before
`_clearSignatures`, so the input keeps its signature material. -/
theorem claimC8_counterexample :
    txC8._changeScript = none ∧
    fee txC8 3 = .ok { txC8 with _fee := some 3 } ∧
    ({ txC8 with _fee := some 3 } : Transaction).inputs.map (fun i => i.signatures)
      = [[7]] := ⟨rfl, rfl, by decide⟩

/-- Claim C8 (amended): when a change script is configured, `fee(amount)`
and `feePerKb(amount)` clear all input signatures (through the re-triggered
change maintenance), leaving every input with no accumulated signature
material; with no change script configured they only record the override and
leave the state — signatures included — untouched. -/
theorem claimC8_amended (t : Transaction) (amount : Int) :
    (t._changeScript = none →
      fee t amount = .ok { t with _fee := some amount } ∧
      feePerKb t amount = .ok { t with _feePerKb := some amount }) ∧
    (∀ cs t', t._changeScript = some cs → fee t amount = .ok t' →
      ∀ i ∈ t'.inputs, i.signatures = []) ∧
    (∀ cs t', t._changeScript = some cs → feePerKb t amount = .ok t' →
      ∀ i ∈ t'.inputs, i.signatures = []) := by
  refine ⟨?_, ?_, ?_⟩
  · intro hcs
    constructor
    · unfold fee _updateChangeOutput
      rw [show ({ t with _fee := some amount } : Transaction)._changeScript = none from hcs]
    · unfold feePerKb _updateChangeOutput
      rw [show ({ t with _feePerKb := some amount } : Transaction)._changeScript
        = none from hcs]
  · intro cs t' hcs h
    unfold fee _updateChangeOutput at h
    rw [show ({ t with _fee := some amount } : Transaction)._changeScript
      = some cs from hcs] at h
    dsimp only at h
    cases hci : t._changeIndex with
    | none =>
      rw [clearSignatures_changeIndex,
        show ({ t with _fee := some amount } : Transaction)._changeIndex
          = t._changeIndex from rfl, hci] at h
      dsimp only at h
      have hin := updateChangeBody_inputs h
      intro i hi
      rw [hin, clearSignatures_inputs] at hi
      obtain ⟨x, _, rfl⟩ := List.mem_map.mp hi
      rfl
    | some k =>
      rw [clearSignatures_changeIndex,
        show ({ t with _fee := some amount } : Transaction)._changeIndex
          = t._changeIndex from rfl, hci] at h
      dsimp only at h
      have hin := updateChangeBody_inputs h
      intro i hi
      rw [hin, removeOut_inputs, clearSignatures_inputs] at hi
      obtain ⟨x, _, rfl⟩ := List.mem_map.mp hi
      rfl
  · intro cs t' hcs h
    unfold feePerKb _updateChangeOutput at h
    rw [show ({ t with _feePerKb := some amount } : Transaction)._changeScript
      = some cs from hcs] at h
    dsimp only at h
    cases hci : t._changeIndex with
    | none =>
      rw [clearSignatures_changeIndex,
        show ({ t with _feePerKb := some amount } : Transaction)._changeIndex
          = t._changeIndex from rfl, hci] at h
      dsimp only at h
      have hin := updateChangeBody_inputs h
      intro i hi
      rw [hin, clearSignatures_inputs] at hi
      obtain ⟨x, _, rfl⟩ := List.mem_map.mp hi
      rfl
    | some k =>
      rw [clearSignatures_changeIndex,
        show ({ t with _feePerKb := some amount } : Transaction)._changeIndex
          = t._changeIndex from rfl, hci] at h
      dsimp only at h
      have hin := updateChangeBody_inputs h
      intro i hi
      rw [hin, removeOut_inputs, clearSignatures_inputs] at hi
      obtain ⟨x, _, rfl⟩ := List.mem_map.mp hi
      rfl


/-- Witness for C8 (amended): the no-change-script branch at `txC8`, and the
signature-clearing branch at `txC8S` (whose only input after `fee 3` is the
cleared `inFunded`, holding no signature material). -/
theorem claimC8_witness :
    (fee txC8 3 = .ok { txC8 with _fee := some 3 }
      ∧ feePerKb txC8 3 = .ok { txC8 with _feePerKb := some 3 }) ∧
    inFunded.signatures = [] :=
  ⟨(claimC8_amended txC8 3).1 rfl,
    (claimC8_amended txC8S 3).2.1 sPkh tC8S rfl rfl inFunded (by decide)⟩


theorem allUtxo_emptied (t : Transaction) :
    allUtxo (emptiedOutputs t) = allUtxo t := by
  show allUtxo (_clearSignatures { t with outputs := ([] : List Output) }) = allUtxo t
  rw [allUtxo_clearSig]
  rfl

theorem inputTotalD_emptied (t : Transaction) :
    inputTotalD (emptiedOutputs t) = inputTotalD t := by
  show inputsTotal (t.inputs.map Input.clearSig) = inputsTotal t.inputs
  exact inputsTotal_clearSig _

theorem isCoinbase_clearSig (t : Transaction) :
    (_clearSignatures t).isCoinbase = t.isCoinbase := by
  show (match t.inputs.map Input.clearSig with
    | [i] => i.isNull
    | _ => false) = t.isCoinbase
  unfold isCoinbase
  cases t.inputs with
  | nil => rfl
  | cons a l =>
    cases l with
    | nil => rfl
    | cons b m => rfl

theorem _estimateSize_clearSig (t : Transaction) :
    _estimateSize (_clearSignatures t) = _estimateSize t := by
  unfold _estimateSize
  rw [clearSignatures_outputs, clearSignatures_inputs, List.foldl_map]
  rfl

theorem unspentD_clearSig (t : Transaction) :
    unspentD (_clearSignatures t) = unspentD t := by
  unfold unspentD
  rw [inputTotalD_clearSig, clearSignatures_outputs]

theorem getFeePure_clearSig (t : Transaction) :
    getFeePure (_clearSignatures t) = getFeePure t := by
  unfold getFeePure
  rw [isCoinbase_clearSig, clearSignatures_fee, clearSignatures_changeScript,
    _estimateSize_clearSig, unspentD_clearSig, clearSignatures_feePerKb]

/-- Claim C9 (confirmed).  With a change script configured and a positive
`available - fee` after emptying the outputs (available is the full input
total; the fee is `getFee()` at the emptied state), `clearOutputs()` leaves
exactly one output — the tracked change output at index 0, carrying the
change script and `available - fee`; the outputs list can only end up empty
when no change script is set or no positive change remains. -/
theorem claimC9_clearOutputsChange {t t' : Transaction} (hc : cachesCoherent t)
    (hall : allUtxo t = true) (h : clearOutputs t = .ok t') :
    (∀ cs, t._changeScript = some cs →
      inputTotalD t - getFeePure (emptiedOutputs t) > 0 →
      t'.outputs
          = [{ script := cs, satoshis := inputTotalD t - getFeePure (emptiedOutputs t) }]
        ∧ t'._changeIndex = some 0) ∧
    (t'.outputs = [] →
      t._changeScript = none ∨ inputTotalD t - getFeePure (emptiedOutputs t) ≤ 0) := by
  have hch : clearOutputs t = _updateChangeOutput (emptiedOutputs t) := rfl
  rw [hch] at h
  unfold _updateChangeOutput at h
  cases hcs : t._changeScript with
  | none =>
    have hcsE : (emptiedOutputs t)._changeScript = none := hcs
    rw [hcsE] at h
    dsimp only at h
    simp only [Except.ok.injEq] at h
    subst h
    refine ⟨?_, fun _ => Or.inl rfl⟩
    intro cs hcs2 _
    cases hcs2
  | some cs =>
    have hcsE : (emptiedOutputs t)._changeScript = some cs := hcs
    rw [hcsE] at h
    dsimp only at h
    rw [clearSignatures_changeIndex,
      show (emptiedOutputs t)._changeIndex = none from rfl] at h
    dsimp only at h
    unfold _updateChangeBody at h
    have hcw : cachesCoherent (_clearSignatures (emptiedOutputs t)) :=
      coherent_clearSig (coherent_clearOutputsTweak hc)
    have hallw : allUtxo (_clearSignatures (emptiedOutputs t)) = true := by
      rw [allUtxo_clearSig, allUtxo_emptied]
      exact hall
    rw [_getUnspentValue_eq hcw hallw] at h
    dsimp only at h
    rw [getFee_fill] at h
    dsimp only at h
    have hval : unspentD (_clearSignatures (emptiedOutputs t)) = inputTotalD t := by
      rw [unspentD_clearSig]
      show inputTotalD (emptiedOutputs t) - outputsTotal ([] : List Output) = inputTotalD t
      rw [inputTotalD_emptied]
      show inputTotalD t - 0 = inputTotalD t
      omega
    have hfee : getFeePure (_clearSignatures (emptiedOutputs t))
        = getFeePure (emptiedOutputs t) := getFeePure_clearSig _
    rw [hval, hfee] at h
    by_cases hpos : inputTotalD t - getFeePure (emptiedOutputs t) > 0
    · rw [if_pos hpos] at h
      simp only [Except.ok.injEq] at h
      subst h
      constructor
      · intro cs2 hcs2 _
        obtain rfl : cs = cs2 := by injection hcs2
        exact ⟨rfl, rfl⟩
      · intro habs
        simp only [addOut_outputs] at habs
        cases habs
    · rw [if_neg hpos] at h
      simp only [Except.ok.injEq] at h
      subst h
      refine ⟨?_, fun _ => Or.inr (not_lt.mp hpos)⟩
      intro cs2 hcs2 hp
      exact absurd hp hpos

/-- Witness for C9 at `txC9` (input total 1000, fixed fee 100, change
script configured): the emptied state yields a single 900-satoshi change
output at index 0. -/
theorem claimC9_witness :
    tC9R.outputs = [{ script := sPkh, satoshis := 900 }] ∧ tC9R._changeIndex = some 0 :=
  (claimC9_clearOutputsChange
    (by constructor <;> intro v hv <;> simp [txC9] at hv) (by decide)
    (show clearOutputs txC9 = .ok tC9R from rfl)).1 sPkh rfl (by decide)

/- Snapshot reconstruction lemmas (claim C10) -/

theorem updateChange_noChange {t t' : Transaction} (hcs : t._changeScript = none)
    (h : _updateChangeOutput t = .ok t') : t' = t := by
  unfold _updateChangeOutput at h
  rw [hcs] at h
  dsimp only at h
  simp only [Except.ok.injEq] at h
  exact h.symm

theorem uncheckedAddInput_fields {t : Transaction} {i : Input} {t' : Transaction}
    (hcs : t._changeScript = none) (h : uncheckedAddInput t i = .ok t') :
    t' = { t with inputs := t.inputs ++ [i], _inputAmount := none } := by
  unfold uncheckedAddInput at h
  exact updateChange_noChange hcs h

theorem addInput_fields {t : Transaction} {i : Input} {os : Option Script}
    {sat : Option Int} {t' : Transaction}
    (hcs : t._changeScript = none) (h : addInput t i os sat = .ok t') :
    ∃ i', t' = { t with inputs := t.inputs ++ [i'], _inputAmount := none } := by
  unfold addInput at h
  split at h
  · cases h
  · exact ⟨_, uncheckedAddInput_fields hcs h⟩

theorem addOutput_fields {t : Transaction} {o : Output} {t' : Transaction}
    (hcs : t._changeScript = none) (h : addOutput t o = .ok t') :
    t' = _addOutput t o := by
  unfold addOutput at h
  exact updateChange_noChange hcs h

theorem fromObjectInputs_noChange {l : List InputSnapshot} {t t' : Transaction}
    (h : fromObjectInputs l t = .ok t')
    (hn : t._changeScript = none ∧ t._changeIndex = none ∧ t._fee = none) :
    t'._changeScript = none ∧ t'._changeIndex = none ∧ t'._fee = none := by
  induction l generalizing t with
  | nil =>
    rw [fromObjectInputs] at h
    simp only [Except.ok.injEq] at h
    exact h ▸ hn
  | cons s rest ih =>
    rw [fromObjectInputs] at h
    cases hcl : classifySnapshotInput s with
    | error e => rw [hcl] at h; cases h
    | ok p =>
      obtain ⟨i, b⟩ := p
      rw [hcl] at h
      dsimp only at h
      cases hadd : (if b then addInput t i none none else uncheckedAddInput t i) with
      | error e => rw [hadd] at h; cases h
      | ok t1 =>
        rw [hadd] at h
        refine ih h ?_
        cases b with
        | true =>
          rw [if_pos rfl] at hadd
          obtain ⟨i', rfl⟩ := addInput_fields hn.1 hadd
          exact hn
        | false =>
          rw [if_neg (by simp)] at hadd
          obtain rfl := uncheckedAddInput_fields hn.1 hadd
          exact hn
  
theorem fromObjectOutputs_noChange {l : List Output} {t t' : Transaction}
    (h : fromObjectOutputs l t = .ok t')
    (hn : t._changeScript = none ∧ t._changeIndex = none ∧ t._fee = none) :
    t'._changeScript = none ∧ t'._changeIndex = none ∧ t'._fee = none := by
  induction l generalizing t with
  | nil =>
    rw [fromObjectOutputs] at h
    simp only [Except.ok.injEq] at h
    exact h ▸ hn
  | cons o rest ih =>
    rw [fromObjectOutputs] at h
    cases hadd : addOutput t o with
    | error e => rw [hadd] at h; cases h
    | ok t1 =>
      rw [hadd] at h
      refine ih h ?_
      obtain rfl := addOutput_fields hn.1 hadd
      exact hn

/-- Claim C10 (confirmed).  Snapshot reconstruction drops zero-valued
bookkeeping fields: `fromObject` restores `changeIndex` and `fee` behind JS
truthiness guards, so a snapshot value of 0 leaves the field unset, while
nonzero values are restored exactly. -/
theorem claimC10_truthyRestore (snap : TxSnapshot) (t : Transaction)
    (h : fromObject snap = .ok t) :
    (snap.changeIndex = some 0 → t._changeIndex = none) ∧
    (snap.fee = some 0 → t._fee = none) ∧
    (∀ n, snap.changeIndex = some n → n ≠ 0 → t._changeIndex = some n) ∧
    (∀ f, snap.fee = some f → f ≠ 0 → t._fee = some f) := by
  unfold fromObject at h
  cases h1 : fromObjectInputs snap.inputs newTransaction with
  | error e => rw [h1] at h; cases h
  | ok t0 =>
    rw [h1] at h
    dsimp only at h
    cases h2 : fromObjectOutputs snap.outputs t0 with
    | error e => rw [h2] at h; cases h
    | ok t1 =>
      rw [h2] at h
      dsimp only at h
      have hn1 : t1._changeScript = none ∧ t1._changeIndex = none ∧ t1._fee = none :=
        fromObjectOutputs_noChange h2 (fromObjectInputs_noChange h1 ⟨rfl, rfl, rfl⟩)
      split at h
      · cases h
      · simp only [Except.ok.injEq] at h
        subst h
        refine ⟨?_, ?_, ?_, ?_⟩
        · intro hci
          rw [hci]
          cases hcsn : snap.changeScript <;> cases hff : snap.fee <;>
            simp_all <;> (try split_ifs) <;> (try simp_all)
        · intro hfe
          rw [hfe]
          cases hcsn : snap.changeScript <;> cases hcii : snap.changeIndex <;>
            simp_all <;> (try split_ifs) <;> (try simp_all)
        · intro n hci hn0
          rw [hci]
          cases hcsn : snap.changeScript <;> cases hff : snap.fee <;>
            simp_all <;> (try split_ifs) <;> (try simp_all)
        · intro f hfe hf0
          rw [hfe]
          cases hcsn : snap.changeScript <;> cases hcii : snap.changeIndex <;>
            simp_all


/-- Witness for C10 at `snapC10` (changeIndex 0, fee 0): both fields end up
unset. -/
theorem claimC10_witness :
    tC10._changeIndex = none ∧ tC10._fee = none :=
  ⟨(claimC10_truthyRestore snapC10 tC10 rfl).1 rfl,
    (claimC10_truthyRestore snapC10 tC10 rfl).2.1 rfl⟩

/-- Claim C6 (code bug).  The duplicate-input check of `verify()` keys the
seen-map on `` `${prevTxId}:${outputIndex}` ``, stringifying the raw id
buffer through lossy UTF-8 decoding.  Distinct ids made of invalid UTF-8
bytes collapse to the same replacement-character text, so `verify` reports
a duplicate input for `txC6` although its two `(prevTxId, outputIndex)`
pairs are distinct — where the claim (and bitcoin core's CheckTransaction,
whose logic the function's comment claims to mirror) requires success. -/
theorem claimC6_duplicateKeyCollision :
    verify txC6 = some "Transaction contains duplicate input" ∧
    txC6.inputs.Pairwise
      (fun a b => ¬(a.prevTxId = b.prevTxId ∧ a.outputIndex = b.outputIndex)) ∧
    bufToString (List.replicate 32 128) = bufToString (List.replicate 32 129) := by
  refine ⟨by decide, by decide, by decide⟩

/- Serialization-pipeline lemmas (claim C5) -/

theorem isFullySigned_all {t : Transaction}
    (hcl : t.inputs.all (fun i => i.classified) = true) :
    isFullySigned t = .ok (t.inputs.all (fun i => i.fullySigned)) := by
  unfold isFullySigned
  have hno : t.inputs.any (fun i => !i.classified) = false := by
    rw [List.any_eq_false]
    intro x hx
    have hx2 := List.all_eq_true.mp hcl x hx
    simp only [hx2, Bool.not_true, Bool.false_eq_true, not_false_eq_true]
  rw [hno]
  rfl

theorem serErrorTail_none {opts : SerializeOpts} {t1 : Transaction}
    (hcl : t1.inputs.all (fun i => i.classified) = true) :
    (serErrorTail opts (none, t1)).map Prod.fst
      = .ok (firstSome
          [ if !opts.disableDustOutputs
              ∧ t1.outputs.any
                  (fun o => o.satoshis < DUST_AMOUNT && !o.script.isDataOut) = true then
              some SerError.DustOutputs
            else none
          , if !opts.disableIsFullySigned
              ∧ ¬(t1.inputs.all (fun i => i.fullySigned) = true) then
              some SerError.MissingSignatures
            else none ]) := by
  unfold serErrorTail _hasDustOutputs _isMissingSignatures
  cases hd : opts.disableDustOutputs with
  | true =>
    simp only [hd, Bool.not_true, Bool.false_eq_true, if_false, false_and, firstSome]
    cases hs : opts.disableIsFullySigned with
    | true => simp [hs, firstSome, Except.map]
    | false =>
      simp only [hs, Bool.not_false, if_true, true_and]
      rw [isFullySigned_all hcl]
      cases hb : t1.inputs.all (fun i => i.fullySigned) with
      | true => simp [firstSome, Except.map]
      | false => simp [firstSome, Except.map]
  | false =>
    simp only [hd, Bool.not_false, if_true, true_and]
    cases hany : t1.outputs.any (fun o => o.satoshis < DUST_AMOUNT && !o.script.isDataOut) with
    | true => simp [firstSome, Except.map]
    | false =>
      simp only [Bool.false_eq_true, if_false, firstSome]
      cases hs : opts.disableIsFullySigned with
      | true => simp [hs, firstSome, Except.map]
      | false =>
        simp only [hs, Bool.not_false, if_true, true_and]
        rw [isFullySigned_all hcl]
        cases hb : t1.inputs.all (fun i => i.fullySigned) with
        | true => simp [firstSome, Except.map]
        | false => simp [firstSome, Except.map]

theorem hasFeeError_fill {opts : SerializeOpts} {t : Transaction} :
    _hasFeeError opts (fillCaches t) (unspentD t)
      = .ok (firstSome
          [ match t._fee with
            | some f => if f ≠ unspentD t then some SerError.FeeDifferent else none
            | none => none
          , if !opts.disableLargeFees
              ∧ unspentD t > FEE_SECURITY_MARGIN
                  * _estimateFeeStatic (_estimateSize t) (unspentD t) t._feePerKb then
              (if t._changeScript.isNone then some SerError.ChangeAddressMissing
               else some SerError.FeeTooLarge)
            else none
          , if !opts.disableSmallFees
              ∧ unspentD t < ceilDivI
                  (_estimateFeeStatic (_estimateSize t) (unspentD t) t._feePerKb)
                  FEE_SECURITY_MARGIN then
              some SerError.FeeTooSmall
            else none ], fillCaches t) := by
  have hsmall : _hasFeeErrorSmall opts (fillCaches t) (unspentD t)
      = .ok ((if !opts.disableSmallFees
          ∧ unspentD t < ceilDivI
              (_estimateFeeStatic (_estimateSize t) (unspentD t) t._feePerKb)
              FEE_SECURITY_MARGIN then
          some SerError.FeeTooSmall
        else none), fillCaches t) := by
    unfold _hasFeeErrorSmall
    cases hs : opts.disableSmallFees with
    | true => simp [hs]
    | false =>
      simp only [hs, Bool.not_false, if_true, true_and]
      rw [_estimateFee_fill]
      dsimp only
      by_cases hlt : unspentD t < ceilDivI
          (_estimateFeeStatic (_estimateSize t) (unspentD t) t._feePerKb)
          FEE_SECURITY_MARGIN
      · rw [if_pos hlt, if_pos hlt]
      · rw [if_neg hlt, if_neg hlt]
  have hlarge : _hasFeeErrorLarge opts (fillCaches t) (unspentD t)
      = .ok (firstSome
          [ if !opts.disableLargeFees
              ∧ unspentD t > FEE_SECURITY_MARGIN
                  * _estimateFeeStatic (_estimateSize t) (unspentD t) t._feePerKb then
              (if t._changeScript.isNone then some SerError.ChangeAddressMissing
               else some SerError.FeeTooLarge)
            else none
          , if !opts.disableSmallFees
              ∧ unspentD t < ceilDivI
                  (_estimateFeeStatic (_estimateSize t) (unspentD t) t._feePerKb)
                  FEE_SECURITY_MARGIN then
              some SerError.FeeTooSmall
            else none ], fillCaches t) := by
    unfold _hasFeeErrorLarge
    cases hl : opts.disableLargeFees with
    | true =>
      simp only [hl, Bool.not_true, Bool.false_eq_true, if_false, false_and, firstSome]
      rw [hsmall]
      by_cases hlt : unspentD t < ceilDivI
          (_estimateFeeStatic (_estimateSize t) (unspentD t) t._feePerKb)
          FEE_SECURITY_MARGIN
      · by_cases hs : opts.disableSmallFees = false
        · simp [hs, hlt, firstSome]
        · simp only [Bool.not_eq_false] at hs
          simp [hs, firstSome]
      · simp [hlt, firstSome]
    | false =>
      simp only [hl, Bool.not_false, if_true, true_and]
      rw [_estimateFee_fill]
      dsimp only
      by_cases hgt : unspentD t > FEE_SECURITY_MARGIN
          * _estimateFeeStatic (_estimateSize t) (unspentD t) t._feePerKb
      · rw [if_pos hgt]
        have hmc : _missingChange (fillCaches t) = t._changeScript.isNone := rfl
        cases hm : t._changeScript.isNone with
        | true =>
          rw [hmc, hm]
          simp [hgt, hm, firstSome]
        | false =>
          rw [hmc, hm]
          simp [hgt, hm, firstSome]
      · rw [if_neg hgt, hsmall]
        by_cases hlt : unspentD t < ceilDivI
            (_estimateFeeStatic (_estimateSize t) (unspentD t) t._feePerKb)
            FEE_SECURITY_MARGIN
        · by_cases hs : opts.disableSmallFees = false
          · simp [hs, hlt, hgt, firstSome]
          · simp only [Bool.not_eq_false] at hs
            simp [hs, hgt, firstSome]
        · simp [hlt, hgt, firstSome]
  unfold _hasFeeError
  rw [fillCaches_fee]
  cases hf : t._fee with
  | none =>
    dsimp only
    rw [hlarge]
    simp [firstSome]
  | some f =>
    dsimp only
    by_cases hne : f ≠ unspentD t
    · rw [if_pos hne]
      simp [hne, firstSome]
    · rw [if_neg hne, hlarge]
      simp only [ne_eq, Decidable.not_not] at hne
      simp [hne, firstSome]

/-- Claim C5 (confirmed).  `getSerializationError` evaluates its checks in
the fixed order — invalid output satoshis; negative unspent value (unless
`disableMoreOutputThanInput`); the fee bounds on a non-negative unspent
value (explicit-fee mismatch, then too-large — downgraded to
change-address-missing without a change script — unless `disableLargeFees`,
then too-small unless `disableSmallFees`); dust outputs (unless
`disableDustOutputs`); missing signatures (unless `disableIsFullySigned`) —
returning the first failure and nothing when all pass, exactly as the
claim-side pipeline `specSerializationError` states it. -/
theorem claimC5_serializationPipeline (opts : SerializeOpts) (t : Transaction)
    (hc : cachesCoherent t) (hall : allUtxo t = true)
    (hcl : t.inputs.all (fun i => i.classified) = true) :
    (getSerializationError opts t).map Prod.fst = .ok (specSerializationError opts t) := by
  have hclF : (fillCaches t).inputs.all (fun i => i.classified) = true := hcl
  unfold getSerializationError specSerializationError
  dsimp only
  by_cases hinv : invalidSatoshis t
  · rw [if_pos hinv, if_pos hinv]
    simp [firstSome, Except.map]
  · rw [if_neg hinv, if_neg hinv]
    rw [_getUnspentValue_eq hc hall]
    dsimp only
    by_cases hneg : unspentD t < 0
    · rw [if_pos hneg]
      rw [if_neg (show ¬ (0 ≤ unspentD t) from not_le.mpr hneg)]
      cases hdis : opts.disableMoreOutputThanInput with
      | false =>
        simp [serErrorTail, firstSome, Except.map, hneg]
      | true =>
        rw [show (if (!true) = true then some SerError.InvalidOutputAmountSum else none)
              = (none : Option SerError) from rfl]
        rw [serErrorTail_none hclF]
        rw [if_neg (show ¬(unspentD t < 0 ∧ (!true) = true) from
          fun h => Bool.false_ne_true h.2)]
        simp only [firstSome]
        rfl
    · rw [if_neg hneg]
      rw [if_pos (show (0:Int) ≤ unspentD t from not_lt.mp hneg)]
      rw [if_neg (show ¬(unspentD t < 0 ∧ (!opts.disableMoreOutputThanInput) = true) from
        fun hx => hneg hx.1)]
      rw [hasFeeError_fill]
      dsimp only
      cases hfe : firstSome
          [ match t._fee with
            | some f => if f ≠ unspentD t then some SerError.FeeDifferent else none
            | none => none
          , if !opts.disableLargeFees
              ∧ unspentD t > FEE_SECURITY_MARGIN
                  * _estimateFeeStatic (_estimateSize t) (unspentD t) t._feePerKb then
              (if t._changeScript.isNone then some SerError.ChangeAddressMissing
               else some SerError.FeeTooLarge)
            else none
          , if !opts.disableSmallFees
              ∧ unspentD t < ceilDivI
                  (_estimateFeeStatic (_estimateSize t) (unspentD t) t._feePerKb)
                  FEE_SECURITY_MARGIN then
              some SerError.FeeTooSmall
            else none ] with
      | some e =>
        simp only [serErrorTail, firstSome, Except.map]
      | none =>
        simp only [firstSome]
        rw [serErrorTail_none hclF]
        rfl

/-- Witness for claim C5: on a fresh transaction with all checks enabled
the code and the claim-side pipeline agree (both report a too-small fee). -/
theorem claimC5_witness :
    (getSerializationError opts0 newTransaction).map Prod.fst
      = .ok (specSerializationError opts0 newTransaction) :=
  claimC5_serializationPipeline opts0 newTransaction
    (by constructor <;> intro v hv <;> simp [newTransaction] at hv) (by decide) (by decide)

end Transaction

end BCash
